import Mathlib

/-!
# go-uuid: the identifier codec of `uuid.go`

A shallow embedding of the Go package `uuid` (file `uuid.go`) and of the two
functions of the standard library's `encoding/hex` it calls.

Conventions of the embedding:

* a Go `byte` is a `Fin 256`; a Go `string` and a read-only `[]byte` are the
  list of their bytes (`len` is the number of bytes, indexing is by byte);
* a fixed-size array `[n]byte` is `Arr n`; a slice that is written through is
  a window (`Slice`: offset and length) into the array that backs it;
* a Go function returns `Exec`: either its results or the run-time panic it
  stops with (index or slice bound out of range).  Bounds are checked against
  the length of a slice, which never exceeds its capacity, so whatever the
  model accepts is in range in Go;
* a function with result `(UUID, error)` returns `UUID × Option Error`;
  a method on `*UUID` takes the value stored in the target and returns the
  value stored afterwards together with the error.
-/

namespace Uuid

/-! ## Bytes, strings, arrays and slices -/

/-- Go `byte`. -/
abbrev Byte := Fin 256

/-- Conversion `byte(n)`: truncation to eight bits. -/
def byte (n : Nat) : Byte := ⟨n % 256, Nat.mod_lt n (by decide)⟩

/-- Go `string`: its bytes. -/
abbrev GoString := List Byte

/-- Bytes of an ASCII string literal of the source. -/
def ascii (s : String) : GoString := s.toList.map (fun c => byte c.toNat)

/-- Run-time panics. -/
inductive Panic where
  /-- Index out of range. -/
  | index
  /-- Slice bounds out of range. -/
  | bounds
  /-- Call `panic(err)`; `msg` is the text of `err`. -/
  | raised (msg : GoString)
deriving DecidableEq

/-- Outcome of running Go code: its results, or the panic that stops it. -/
abbrev Exec (α : Type) := Except Panic α

deriving instance DecidableEq for Except

/-- Index expression `s[i]` on a sequence that is only read. -/
def index (s : List Byte) (i : Nat) : Exec Byte :=
  match s[i]? with
  | some c => Except.ok c
  | none => Except.error Panic.index

/-- Go array `[n]byte`. -/
structure Arr (n : Nat) where
  data : List Byte
  size : data.length = n
deriving DecidableEq

/-- Zero value of `[n]byte`. -/
def Arr.zero (n : Nat) : Arr n := ⟨List.replicate n 0, List.length_replicate n 0⟩

/-- Assignment `a[i] = v` (callers check the bound). -/
def Arr.set {n : Nat} (a : Arr n) (i : Nat) (v : Byte) : Arr n :=
  ⟨a.data.set i v, by rw [List.length_set]; exact a.size⟩

/-- Writable slice into a backing array: first index and length. -/
structure Slice where
  off : Nat
  len : Nat
deriving DecidableEq

/-- Slice expression `d[:hi]`. -/
def Slice.sliceTo (d : Slice) (hi : Nat) : Exec Slice :=
  if hi ≤ d.len then Except.ok ⟨d.off, hi⟩ else Except.error Panic.bounds

/-- Slice expression `d[lo:]`. -/
def Slice.sliceFrom (d : Slice) (lo : Nat) : Exec Slice :=
  if lo ≤ d.len then Except.ok ⟨d.off + lo, d.len - lo⟩ else Except.error Panic.bounds

/-- Slice expression `d[lo:hi]`. -/
def Slice.sub (d : Slice) (lo hi : Nat) : Exec Slice :=
  if lo ≤ hi ∧ hi ≤ d.len then Except.ok ⟨d.off + lo, hi - lo⟩ else Except.error Panic.bounds

/-- Indexed store `d[i] = v` through the slice `d` into its backing array. -/
def Arr.store {n : Nat} (a : Arr n) (d : Slice) (i : Nat) (v : Byte) : Exec (Arr n) :=
  if i < d.len then Except.ok (a.set (d.off + i) v) else Except.error Panic.index

/-- Slice expression `s[:hi]` on a sequence that is only read. -/
def bytesTo (s : List Byte) (hi : Nat) : Exec (List Byte) :=
  if hi ≤ s.length then Except.ok (s.take hi) else Except.error Panic.bounds

/-- Slice expression `s[lo:]` on a sequence that is only read. -/
def bytesFrom (s : List Byte) (lo : Nat) : Exec (List Byte) :=
  if lo ≤ s.length then Except.ok (s.drop lo) else Except.error Panic.bounds

/-- Slice expression `s[lo:hi]` on a sequence that is only read. -/
def bytesSub (s : List Byte) (lo hi : Nat) : Exec (List Byte) :=
  if lo ≤ hi ∧ hi ≤ s.length then Except.ok ((s.take hi).drop lo)
  else Except.error Panic.bounds

/-- Builtin `copy(dst, src)` onto a whole array: the first
`min(len(dst), len(src))` bytes are overwritten. -/
def Arr.copy {n : Nat} (dst : Arr n) (src : List Byte) : Arr n :=
  ⟨src.take n ++ dst.data.drop src.length, by
    rw [List.length_append, List.length_take, List.length_drop, dst.size]; omega⟩

/-! ## `encoding/hex` (Go standard library) -/

/-- Errors of `encoding/hex`. -/
inductive HexError where
  /-- Value `hex.InvalidByteError(b)`. -/
  | InvalidByteError (b : Byte)
  /-- Value `hex.ErrLength`. -/
  | ErrLength
deriving DecidableEq

/-- Constant `hextable = "0123456789abcdef"`. -/
def hextable : GoString := ascii "0123456789abcdef"

/-- Function `fromHexChar(c byte) (byte, bool)` of `encoding/hex` (later
releases read the same values from the table `reverseHexTable`): `none`
stands for `(0, false)`. -/
def fromHexChar (c : Byte) : Option Byte :=
  if 48 ≤ c.val ∧ c.val ≤ 57 then some (byte (c.val - 48))             -- '0' .. '9'
  else if 97 ≤ c.val ∧ c.val ≤ 102 then some (byte (c.val - 97 + 10))   -- 'a' .. 'f'
  else if 65 ≤ c.val ∧ c.val ≤ 70 then some (byte (c.val - 65 + 10))    -- 'A' .. 'F'
  else none

/-- Loop of `hex.Encode`: `src` is what is left to encode, `j` the write index. -/
def Encode.loop {n : Nat} (buf : Arr n) (dst : Slice) : List Byte → Nat → Exec (Arr n)
  | [], _ => Except.ok buf
  | v :: rest, j => do
      let hi ← index hextable (v.val >>> 4)
      let buf ← buf.store dst j hi
      let lo ← index hextable (v.val &&& 0x0f)
      let buf ← buf.store dst (j + 1) lo
      Encode.loop buf dst rest (j + 2)

/-- Function `hex.Encode(dst, src)`: returns the backing array of `dst` after
the call and the number of bytes written. -/
def Encode {n : Nat} (buf : Arr n) (dst : Slice) (src : List Byte) : Exec (Arr n × Nat) := do
  let buf ← Encode.loop buf dst src 0
  return (buf, src.length * 2)

/-- Loop of `hex.Decode`: `src` is what is left to decode (from index `j - 1`
on), `i` the write index. -/
def Decode.loop {n : Nat} (buf : Arr n) (dst : Slice) :
    List Byte → Nat → Exec (Arr n × Nat × Option HexError)
  | p :: q :: rest, i =>
      match fromHexChar p with
      | none => Except.ok (buf, i, some (HexError.InvalidByteError p))
      | some a =>
        match fromHexChar q with
        | none => Except.ok (buf, i, some (HexError.InvalidByteError q))
        | some b => do
            let buf ← buf.store dst i (byte ((a.val <<< 4) ||| b.val))
            Decode.loop buf dst rest (i + 1)
  | [p], i =>
      match fromHexChar p with
      | none => Except.ok (buf, i, some (HexError.InvalidByteError p))
      | some _ => Except.ok (buf, i, some HexError.ErrLength)
  | [], i => Except.ok (buf, i, none)

/-- Function `hex.Decode(dst, src)`: returns the backing array of `dst` after
the call (bytes decoded before an error stay written), the number of bytes
written and the error. -/
def Decode {n : Nat} (buf : Arr n) (dst : Slice) (src : List Byte) :
    Exec (Arr n × Nat × Option HexError) :=
  Decode.loop buf dst src 0

/-! ## Package `uuid`: values and errors -/

/-- Type `UUID [16]byte`. -/
abbrev UUID := Arr 16

/-- Name of a Go type, as the verb `%T` prints it. -/
abbrev TypeName := GoString

/-- Value of type `interface{}`, by dynamic type: the nil interface, a
`[]byte`, a `string`, or a value of any other type (given by the name of
that type). -/
inductive Value where
  | nil
  | bytes (b : List Byte)
  | string (s : GoString)
  | other (t : TypeName)
deriving DecidableEq

/-- Errors the package returns: one constructor for each `fmt.Errorf` call
of `uuid.go`, with the operands of the call, and one for each foreign error
that is passed on unchanged. -/
inductive Error where
  /-- Value of `fmt.Errorf("uuid: invalid parse length %s", s)`. -/
  | parseLength (s : GoString)
  /-- Value of `fmt.Errorf("uuid: invalid parse format %s", s)`. -/
  | parseFormat (s : GoString)
  /-- Value of `fmt.Errorf("uuid: invalid parse length (%d) on %#v", len(b), b)`. -/
  | bytesLength (n : Nat) (b : List Byte)
  /-- Value of `fmt.Errorf("uuid: could not parse uuid from type %T", src)`. -/
  | parseType (t : TypeName)
  /-- Value of `fmt.Errorf("uuid: unable to scan type %T", src)`. -/
  | scanType (t : TypeName)
  /-- Error of `encoding/hex`, returned as it is. -/
  | hex (e : HexError)
  /-- Error of `io.ReadFull(rand.Reader, _)`, returned as it is; `msg` is its text. -/
  | reader (msg : GoString)
deriving DecidableEq

/-- Verb `%T`: the name of the dynamic type. -/
def Value.typeName : Value → TypeName
  | Value.nil => ascii "<nil>"
  | Value.bytes _ => ascii "[]uint8"
  | Value.string _ => ascii "string"
  | Value.other t => t

/-- Verb `%#v` on a non-nil `[]byte`: Go syntax, `[]byte{0x3d, 0x6}`.  (A nil
slice, which a list cannot tell from an empty one, prints as `[]byte(nil)`.) -/
def sharpV (b : List Byte) : GoString :=
  ascii "[]byte\x7b"
    ++ (ascii ", ").intercalate (b.map (fun c => ascii "0x" ++ ascii (String.mk (Nat.toDigits 16 c.val))))
    ++ ascii "\x7d"

/-- Function `strconv.IsPrint` on the runes below 0x100. -/
def isPrint (c : Byte) : Bool :=
  if 0x20 ≤ c.val ∧ c.val ≤ 0x7E then true
  else if 0xA1 ≤ c.val ∧ c.val ≤ 0xFF then c.val != 0xAD
  else false

/-- Verb `%#U` on `rune(c)`: `U+0067 'g'`, the quoted character only when it
is printable. -/
def sharpU (c : Byte) : GoString :=
  let upper := ascii "0123456789ABCDEF"
  let utf8 : GoString :=
    if c.val < 0x80 then [c] else [byte (0xC0 ||| (c.val >>> 6)), byte (0x80 ||| (c.val &&& 0x3F))]
  ascii "U+00" ++ [upper.getD (c.val >>> 4) 0, upper.getD (c.val &&& 0x0f) 0]
    ++ (if isPrint c then ascii " '" ++ utf8 ++ ascii "'" else [])

/-- Method `Error()` of `hex.InvalidByteError` and of `hex.ErrLength`. -/
def HexError.message : HexError → GoString
  | HexError.InvalidByteError b => ascii "encoding/hex: invalid byte: " ++ sharpU b
  | HexError.ErrLength => ascii "encoding/hex: odd length hex string"

/-- Method `Error()`: the text of the error. -/
def Error.message : Error → GoString
  | Error.parseLength s => ascii "uuid: invalid parse length " ++ s
  | Error.parseFormat s => ascii "uuid: invalid parse format " ++ s
  | Error.bytesLength n b =>
      ascii "uuid: invalid parse length (" ++ ascii (toString n) ++ ascii ") on " ++ sharpV b
  | Error.parseType t => ascii "uuid: could not parse uuid from type " ++ t
  | Error.scanType t => ascii "uuid: unable to scan type " ++ t
  | Error.hex e => e.message
  | Error.reader msg => msg

/-! ## Package `uuid`: functions of `uuid.go` -/

/-- Function `encodeHex(uuid UUID) []byte`. -/
def encodeHex (uuid : UUID) : Exec (List Byte) := do
  let buf : Arr 36 := Arr.zero 36
  let whole : Slice := ⟨0, 36⟩
  let r ← Encode buf whole (← bytesTo uuid.data 4)
  let buf ← r.1.store whole 8 45                       -- '-' is 45
  let r ← Encode buf (← whole.sub 9 13) (← bytesSub uuid.data 4 6)
  let buf ← r.1.store whole 13 45
  let r ← Encode buf (← whole.sub 14 18) (← bytesSub uuid.data 6 8)
  let buf ← r.1.store whole 18 45
  let r ← Encode buf (← whole.sub 19 23) (← bytesSub uuid.data 8 10)
  let buf ← r.1.store whole 23 45
  let r ← Encode buf (← whole.sliceFrom 24) (← bytesFrom uuid.data 10)
  return r.1.data

/-- Method `(uuid UUID) String() string`. -/
def UUID.String (uuid : UUID) : Exec GoString := do
  let buf ← encodeHex uuid
  bytesFrom buf 0

/-- Method `(uuid UUID) Bytes() []byte`. -/
def UUID.Bytes (uuid : UUID) : List Byte := uuid.data

/-- Loop of `parseCanonical` over the groups still to decode; `i` is the
index of the group.  Returns the variables `u`, `src`, `dst` as they are when
the loop is left, and the error it is left with. -/
def parseCanonical.loop :
    List Nat → Nat → UUID → List Byte → Slice → Exec (UUID × List Byte × Slice × Option Error)
  | [], _, u, src, dst => Except.ok (u, src, dst, none)
  | group :: groups, i, u, src, dst => do
      let src ← if i > 0 then bytesFrom src 1 else Except.ok src
      let d ← dst.sliceTo (group / 2)
      let g ← bytesTo src group
      let r ← Decode u d g
      match r.2.2 with
      | some e => Except.ok (r.1, src, dst, some (Error.hex e))
      | none => do
          let src ← bytesFrom src group
          let dst ← dst.sliceFrom (group / 2)
          parseCanonical.loop groups (i + 1) r.1 src dst

/-- Condition `s[8] != '-' || s[13] != '-' || s[18] != '-' || s[23] != '-'`
of `parseCanonical`, evaluated from left to right ('-' is 45). -/
def parseCanonical.misplaced (s : GoString) : Exec Bool := do
  if (← index s 8) ≠ 45 then return true
  if (← index s 13) ≠ 45 then return true
  if (← index s 18) ≠ 45 then return true
  return decide ((← index s 23) ≠ 45)

/-- Function `parseCanonical(s string) (UUID, error)`. -/
def parseCanonical (s : GoString) : Exec (UUID × Option Error) :=
  if s.length ≠ 36 then Except.ok (Arr.zero 16, some (Error.parseLength s))
  else do
    if (← parseCanonical.misplaced s) then
      return (Arr.zero 16, some (Error.parseFormat s))
    let r ← parseCanonical.loop [8, 4, 4, 4, 12] 0 (Arr.zero 16) s ⟨0, 16⟩
    match r.2.2.2 with
    | some e => return (Arr.zero 16, some e)
    | none => return (r.1, none)

/-- Function `parseBytes(b []byte) (UUID, error)`. -/
def parseBytes (b : List Byte) : Exec (UUID × Option Error) :=
  let uuid : UUID := Arr.zero 16
  if b.length ≠ 16 then Except.ok (Arr.zero 16, some (Error.bytesLength b.length b))
  else Except.ok (uuid.copy b, none)

/-- Function `Parse(src interface{}) (UUID, error)`. -/
def Parse (src : Value) : Exec (UUID × Option Error) :=
  match src with
  | Value.string s => parseCanonical s
  | Value.bytes b => parseBytes b
  | v => Except.ok (Arr.zero 16, some (Error.parseType v.typeName))

/-- Function `scan(uuid *UUID, src interface{}) error`. -/
def scan (uuid : UUID) (src : Value) : Exec (UUID × Option Error) := do
  let r ← Parse src
  match r.2 with
  | some e => return (uuid, some e)
  | none => return (r.1, none)

/-- Function `scanString(uuid *UUID, src string) error`. -/
def scanString (uuid : UUID) (src : GoString) : Exec (UUID × Option Error) :=
  if src = [] then Except.ok (uuid, none) else scan uuid (Value.string src)

/-- Function `scanBytes(uuid *UUID, src []byte) error`. -/
def scanBytes (uuid : UUID) (src : List Byte) : Exec (UUID × Option Error) :=
  if src.length = 16 then scan uuid (Value.bytes src) else scanString uuid src

/-- Method `(uuid *UUID) Scan(src interface{}) error`. -/
def UUID.Scan (uuid : UUID) (src : Value) : Exec (UUID × Option Error) :=
  match src with
  | Value.nil => Except.ok (uuid, none)
  | Value.bytes b => scanBytes uuid b
  | Value.string s => scanString uuid s
  | v => Except.ok (uuid, some (Error.scanType v.typeName))

/-- Method `(uuid UUID) Value() (driver.Value, error)`. -/
def UUID.Value (uuid : UUID) : Exec (Value × Option Error) := do
  return (Value.string (← uuid.String), none)

/-- Method `(uuid UUID) MarshalText() ([]byte, error)`. -/
def UUID.MarshalText (uuid : UUID) : Exec (List Byte × Option Error) := do
  let buf ← encodeHex uuid
  return (← bytesFrom buf 0, none)

/-- Method `(uuid *UUID) UnmarshalText(text []byte) error`. -/
def UUID.UnmarshalText (uuid : UUID) (text : List Byte) : Exec (UUID × Option Error) := do
  let r ← Parse (Value.bytes text)
  match r.2 with
  | some e => return (uuid, some e)
  | none => return (r.1, none)

/-- Function `Equal(u1, u2 UUID) bool`, with `bytes.Equal` on the two
sixteen-byte slices. -/
def Equal (u1 u2 : UUID) : Bool := decide (u1.Bytes = u2.Bytes)

/-- What `io.ReadFull(rand.Reader, u[:])` does: it fills the sixteen bytes of
`u` with the bytes `r` that the randomness source delivers, or it fails with
an error (of text `msg`). -/
inductive Read where
  | filled (r : UUID)
  | failed (msg : GoString)
deriving DecidableEq

/-- Function `New() (UUID, error)`, on the outcome of the read from the
randomness source. -/
def New (rd : Read) : Exec (UUID × Option Error) :=
  match rd with
  | Read.failed msg => Except.ok (Arr.zero 16, some (Error.reader msg))
  | Read.filled r => do
      let whole : Slice := ⟨0, 16⟩
      let u ← r.store whole 6 (byte (((← index r.data 6).val &&& 0x0f) ||| 0x40))
      let u ← u.store whole 8 (byte (((← index u.data 8).val &&& 0x3f) ||| 0x80))
      return (u, none)

/-- Function `Must() UUID`: panics with the error of `New`. -/
def Must (rd : Read) : Exec UUID := do
  let r ← New rd
  match r.2 with
  | some e => Except.error (Panic.raised e.message)
  | none => return r.1

/-! ## Vocabulary of the specification -/

/-- Lowercase hexadecimal digit (`0`-`9`, `a`-`f`) of a value below sixteen. -/
def hexDigit (d : Nat) : Byte := if d < 10 then byte (48 + d) else byte (87 + d)

/-- Hexadecimal text of a byte sequence: two lowercase digits for each byte,
high nibble first. -/
def hexOf (bs : List Byte) : GoString :=
  bs.flatMap (fun b => [hexDigit (b.val / 16), hexDigit (b.val % 16)])

/-- Canonical text of sixteen bytes: the hexadecimal text of the byte ranges
[0,4), [4,6), [6,8), [8,10), [10,16), joined by hyphens. -/
def canonical (bs : List Byte) : GoString :=
  hexOf (bs.take 4) ++ ascii "-" ++ hexOf ((bs.take 6).drop 4) ++ ascii "-"
    ++ hexOf ((bs.take 8).drop 6) ++ ascii "-" ++ hexOf ((bs.take 10).drop 8) ++ ascii "-"
    ++ hexOf (bs.drop 10)

/-- Offsets of the four hyphens of the canonical text. -/
def hyphenOffsets : List Nat := [8, 13, 18, 23]

/-- Hexadecimal digit: `0`-`9`, `a`-`f` or `A`-`F`. -/
def isHexDigit (c : Byte) : Prop :=
  (48 ≤ c.val ∧ c.val ≤ 57) ∨ (97 ≤ c.val ∧ c.val ≤ 102) ∨ (65 ≤ c.val ∧ c.val ≤ 70)

instance : DecidablePred isHexDigit := fun c => by unfold isHexDigit; infer_instance

/-- Lowercase hexadecimal digit: `0`-`9` or `a`-`f`. -/
def isLowerHexDigit (c : Byte) : Prop :=
  (48 ≤ c.val ∧ c.val ≤ 57) ∨ (97 ≤ c.val ∧ c.val ≤ 102)

instance : DecidablePred isLowerHexDigit := fun c => by unfold isLowerHexDigit; infer_instance

/-- Value of a hexadecimal digit, in either case (0 for any other byte). -/
def hexValue (c : Byte) : Nat :=
  if 48 ≤ c.val ∧ c.val ≤ 57 then c.val - 48
  else if 97 ≤ c.val ∧ c.val ≤ 102 then c.val - 87
  else if 65 ≤ c.val ∧ c.val ≤ 70 then c.val - 55
  else 0

/-- The string has the byte `c` at offset `i`. -/
def charAt (s : GoString) (i : Nat) (c : Byte) : Prop := s[i]? = some c

instance (s : GoString) (i : Nat) (c : Byte) : Decidable (charAt s i c) := by
  unfold charAt; infer_instance

/-- The string has a hexadecimal digit at offset `i`. -/
def hexAt (s : GoString) (i : Nat) : Prop :=
  match s[i]? with
  | some c => isHexDigit c
  | none => False

instance (s : GoString) (i : Nat) : Decidable (hexAt s i) := by
  unfold hexAt; split <;> infer_instance

/-- The string has a lowercase hexadecimal digit at offset `i`. -/
def lowerHexAt (s : GoString) (i : Nat) : Prop :=
  match s[i]? with
  | some c => isLowerHexDigit c
  | none => False

instance (s : GoString) (i : Nat) : Decidable (lowerHexAt s i) := by
  unfold lowerHexAt; split <;> infer_instance

/-- Well-formed canonical text: 36 bytes, a hyphen at each of the offsets
8, 13, 18, 23 and a hexadecimal digit at each of the other 32 offsets. -/
def WellFormed (s : GoString) : Prop :=
  s.length = 36 ∧ (∀ i, i ∈ hyphenOffsets → charAt s i 45)
    ∧ (∀ i, i < 36 → i ∉ hyphenOffsets → hexAt s i)

instance (s : GoString) : Decidable (WellFormed s) := by
  unfold WellFormed; infer_instance

/-- The text with its hyphens removed. -/
def digitsOf (s : GoString) : GoString := s.filter (fun c => c != 45)

/-- Value of the `i`-th pair of hexadecimal digits of the text with the
hyphens removed. -/
def pairValue (s : GoString) (i : Nat) : Byte :=
  byte (16 * hexValue ((digitsOf s).getD (2 * i) 0) + hexValue ((digitsOf s).getD (2 * i + 1) 0))

/-- Uppercase form of an ASCII letter, any other byte unchanged. -/
def upperByte (c : Byte) : Byte := if 97 ≤ c.val ∧ c.val ≤ 122 then byte (c.val - 32) else c

/-- Lowercase form of an ASCII letter, any other byte unchanged. -/
def lowerByte (c : Byte) : Byte := if 65 ≤ c.val ∧ c.val ≤ 90 then byte (c.val + 32) else c

/-- The identifier of the tests. -/
def sampleUUID : UUID :=
  ⟨[0x3d, 0x83, 0x38, 0xc3, 0x71, 0x06, 0x4d, 0x89, 0xa8, 0x13, 0x9f, 0xd9, 0xb7, 0x95, 0x5b, 0x55], rfl⟩

/-- The canonical text of the identifier of the tests. -/
def sampleText : GoString := ascii "3d8338c3-7106-4d89-a813-9fd9b7955b55"

/-- The 37-byte text of `TestParseCanonicalWithInvalidLengthString`. -/
def longText : GoString := ascii "3d8338c3-7106-4d89-a813-9fd9b7955b550"

/-- The 36-byte text without hyphens of `TestParseCanonicalWithMalformedString`. -/
def malformedText : GoString := ascii "3d8338c37710664d89fa813a9fd9b7955b55"

/-- The text of the tests with its last digit replaced by the letter `g`. -/
def nonHexText : GoString := ascii "3d8338c3-7106-4d89-a813-9fd9b7955b5g"

/-- The 17-byte buffer of `TestParseBytesWithInvalidLengthSlice`. -/
def longBuffer : List Byte :=
  [0x3d, 0x83, 0x38, 0xc3, 0x71, 0x06, 0x4d, 0x89, 0xa8, 0x13, 0xaa, 0x9f, 0xd9, 0xb7, 0x95, 0x5b, 0x55]

/-- Byte `u[i]` of an identifier (0 when `i` is not below sixteen). -/
def UUID.byteAt (u : UUID) (i : Nat) : Byte := u.data.getD i 0

/-- Lowercase form of an uppercase hexadecimal letter `A`-`F`, any other byte
unchanged. -/
def lowerHexLetter (c : Byte) : Byte := if 65 ≤ c.val ∧ c.val ≤ 70 then byte (c.val + 32) else c

/-- Uppercase ASCII letter `A`-`Z`. -/
def isUpperLetter (c : Byte) : Prop := 65 ≤ c.val ∧ c.val ≤ 90

instance : DecidablePred isUpperLetter := fun c => by unfold isUpperLetter; infer_instance

/-- The second identifier of `TestEqualWithDifferentUUIDs`: byte 0 is 0x3e. -/
def otherUUID : UUID :=
  ⟨[0x3e, 0x83, 0x38, 0xc3, 0x71, 0x06, 0x4d, 0x89, 0xa8, 0x13, 0x9f, 0xd9, 0xb7, 0x95, 0x5b, 0x55], rfl⟩

/-- The canonical text of the identifier of the tests, letters in uppercase. -/
def upperText : GoString := ascii "3D8338C3-7106-4D89-A813-9FD9B7955B55"

/-- A buffer of sixteen bytes that are ASCII text. -/
def textBuffer : List Byte := ascii "0123456789abcdef"

/-! ## Lemmas on the embedding -/

@[simp] theorem ok_bind {α β : Type} (a : α) (f : α → Exec β) : (Except.ok a >>= f) = f a := rfl
@[simp] theorem error_bind {α β : Type} (e : Panic) (f : α → Exec β) :
    ((Except.error e : Exec α) >>= f) = Except.error e := rfl
@[simp] theorem pure_eq_ok {α : Type} (a : α) : (pure a : Exec α) = Except.ok a := rfl

theorem list_succ {α : Type} {n : Nat} {l : List α} (h : l.length = n + 1) :
    ∃ a t, l = a :: t ∧ t.length = n := by
  cases l with
  | nil => simp at h
  | cons a t => exact ⟨a, t, rfl, by simpa using h⟩

theorem UUID_cases (U : UUID) : ∃ b0 b1 b2 b3 b4 b5 b6 b7 b8 b9 b10 b11 b12 b13 b14 b15 : Byte,
    U = ⟨[b0, b1, b2, b3, b4, b5, b6, b7, b8, b9, b10, b11, b12, b13, b14, b15], rfl⟩ := by
  obtain ⟨l, h0⟩ := U
  obtain ⟨b0, l, rfl, h1⟩ := list_succ h0
  obtain ⟨b1, l, rfl, h2⟩ := list_succ h1
  obtain ⟨b2, l, rfl, h3⟩ := list_succ h2
  obtain ⟨b3, l, rfl, h4⟩ := list_succ h3
  obtain ⟨b4, l, rfl, h5⟩ := list_succ h4
  obtain ⟨b5, l, rfl, h6⟩ := list_succ h5
  obtain ⟨b6, l, rfl, h7⟩ := list_succ h6
  obtain ⟨b7, l, rfl, h8⟩ := list_succ h7
  obtain ⟨b8, l, rfl, h9⟩ := list_succ h8
  obtain ⟨b9, l, rfl, h10⟩ := list_succ h9
  obtain ⟨b10, l, rfl, h11⟩ := list_succ h10
  obtain ⟨b11, l, rfl, h12⟩ := list_succ h11
  obtain ⟨b12, l, rfl, h13⟩ := list_succ h12
  obtain ⟨b13, l, rfl, h14⟩ := list_succ h13
  obtain ⟨b14, l, rfl, h15⟩ := list_succ h14
  obtain ⟨b15, l, rfl, h16⟩ := list_succ h15
  obtain rfl := List.length_eq_zero.mp h16
  exact ⟨b0, b1, b2, b3, b4, b5, b6, b7, b8, b9, b10, b11, b12, b13, b14, b15, rfl⟩

set_option maxRecDepth 100000 in
theorem hextable_hi (v : Byte) : index hextable (v.val >>> 4) = Except.ok (hexDigit (v.val / 16)) := by
  revert v; decide

set_option maxRecDepth 100000 in
theorem hextable_lo (v : Byte) : index hextable (v.val &&& 15) = Except.ok (hexDigit (v.val % 16)) := by
  revert v; decide

theorem ascii_hyphen : ascii "-" = [45] := by decide

theorem encodeHex_eq (U : UUID) : encodeHex U = Except.ok (canonical U.data) := by
  obtain ⟨b0, b1, b2, b3, b4, b5, b6, b7, b8, b9, b10, b11, b12, b13, b14, b15, rfl⟩ := UUID_cases U
  simp [encodeHex, Encode, Encode.loop, hextable_hi, hextable_lo, bytesTo, bytesSub, bytesFrom,
    Slice.sub, Slice.sliceFrom, Arr.store, Arr.set, Arr.zero, hexOf, List.replicate, canonical,
    ascii_hyphen]

theorem string36_cases (s : GoString) (h0 : s.length = 36) : ∃ c0 c1 c2 c3 c4 c5 c6 c7 c8 c9 c10 c11 c12 c13 c14 c15 c16 c17 c18 c19 c20 c21 c22 c23 c24 c25 c26 c27 c28 c29 c30 c31 c32 c33 c34 c35 : Byte,
    s = [c0, c1, c2, c3, c4, c5, c6, c7, c8, c9, c10, c11, c12, c13, c14, c15, c16, c17, c18, c19, c20, c21, c22, c23, c24, c25, c26, c27, c28, c29, c30, c31, c32, c33, c34, c35] := by
  obtain ⟨c0, s, rfl, h1⟩ := list_succ h0
  obtain ⟨c1, s, rfl, h2⟩ := list_succ h1
  obtain ⟨c2, s, rfl, h3⟩ := list_succ h2
  obtain ⟨c3, s, rfl, h4⟩ := list_succ h3
  obtain ⟨c4, s, rfl, h5⟩ := list_succ h4
  obtain ⟨c5, s, rfl, h6⟩ := list_succ h5
  obtain ⟨c6, s, rfl, h7⟩ := list_succ h6
  obtain ⟨c7, s, rfl, h8⟩ := list_succ h7
  obtain ⟨c8, s, rfl, h9⟩ := list_succ h8
  obtain ⟨c9, s, rfl, h10⟩ := list_succ h9
  obtain ⟨c10, s, rfl, h11⟩ := list_succ h10
  obtain ⟨c11, s, rfl, h12⟩ := list_succ h11
  obtain ⟨c12, s, rfl, h13⟩ := list_succ h12
  obtain ⟨c13, s, rfl, h14⟩ := list_succ h13
  obtain ⟨c14, s, rfl, h15⟩ := list_succ h14
  obtain ⟨c15, s, rfl, h16⟩ := list_succ h15
  obtain ⟨c16, s, rfl, h17⟩ := list_succ h16
  obtain ⟨c17, s, rfl, h18⟩ := list_succ h17
  obtain ⟨c18, s, rfl, h19⟩ := list_succ h18
  obtain ⟨c19, s, rfl, h20⟩ := list_succ h19
  obtain ⟨c20, s, rfl, h21⟩ := list_succ h20
  obtain ⟨c21, s, rfl, h22⟩ := list_succ h21
  obtain ⟨c22, s, rfl, h23⟩ := list_succ h22
  obtain ⟨c23, s, rfl, h24⟩ := list_succ h23
  obtain ⟨c24, s, rfl, h25⟩ := list_succ h24
  obtain ⟨c25, s, rfl, h26⟩ := list_succ h25
  obtain ⟨c26, s, rfl, h27⟩ := list_succ h26
  obtain ⟨c27, s, rfl, h28⟩ := list_succ h27
  obtain ⟨c28, s, rfl, h29⟩ := list_succ h28
  obtain ⟨c29, s, rfl, h30⟩ := list_succ h29
  obtain ⟨c30, s, rfl, h31⟩ := list_succ h30
  obtain ⟨c31, s, rfl, h32⟩ := list_succ h31
  obtain ⟨c32, s, rfl, h33⟩ := list_succ h32
  obtain ⟨c33, s, rfl, h34⟩ := list_succ h33
  obtain ⟨c34, s, rfl, h35⟩ := list_succ h34
  obtain ⟨c35, s, rfl, h36⟩ := list_succ h35
  obtain rfl := List.length_eq_zero.mp h36
  exact ⟨c0, c1, c2, c3, c4, c5, c6, c7, c8, c9, c10, c11, c12, c13, c14, c15, c16, c17, c18, c19, c20, c21, c22, c23, c24, c25, c26, c27, c28, c29, c30, c31, c32, c33, c34, c35, rfl⟩

theorem hexValue_lt (c : Byte) : hexValue c < 16 := by
  unfold hexValue; split_ifs <;> omega

theorem fromHexChar_of_hex {c : Byte} (h : isHexDigit c) : fromHexChar c = some (byte (hexValue c)) := by
  unfold isHexDigit at h
  unfold fromHexChar hexValue
  split_ifs <;> first | rfl | (congr 2; omega)

theorem fromHexChar_of_not_hex {c : Byte} (h : ¬ isHexDigit c) : fromHexChar c = none := by
  unfold isHexDigit at h
  unfold fromHexChar
  split_ifs <;> first | rfl | (exfalso; apply h; omega)

theorem nibbles_eq : ∀ a, a < 16 → ∀ b, b < 16 → a <<< 4 ||| b = 16 * a + b := by decide

theorem byte_val_hexValue (c : Byte) : (byte (hexValue c)).val = hexValue c := by
  have := hexValue_lt c
  simp only [byte]; omega

theorem combine_eq (p q : Byte) :
    byte ((byte (hexValue p)).val <<< 4 ||| (byte (hexValue q)).val)
      = byte (16 * hexValue p + hexValue q) := by
  rw [byte_val_hexValue, byte_val_hexValue, nibbles_eq _ (hexValue_lt p) _ (hexValue_lt q)]

set_option maxRecDepth 10000 in
theorem parseCanonical_hex (c0 c1 c2 c3 c4 c5 c6 c7 c9 c10 c11 c12 c14 c15 c16 c17 c19 c20 c21 c22 c24 c25 c26 c27 c28 c29 c30 c31 c32 c33 c34 c35 : Byte)
    (h : ∀ c ∈ [c0, c1, c2, c3, c4, c5, c6, c7, c9, c10, c11, c12, c14, c15, c16, c17, c19, c20, c21, c22, c24, c25, c26, c27, c28, c29, c30, c31, c32, c33, c34, c35], isHexDigit c) :
    parseCanonical [c0, c1, c2, c3, c4, c5, c6, c7, 45, c9, c10, c11, c12, 45, c14, c15, c16, c17, 45, c19, c20, c21, c22, 45, c24, c25, c26, c27, c28, c29, c30, c31, c32, c33, c34, c35]
      = Except.ok (⟨[byte (16 * hexValue c0 + hexValue c1), byte (16 * hexValue c2 + hexValue c3), byte (16 * hexValue c4 + hexValue c5), byte (16 * hexValue c6 + hexValue c7), byte (16 * hexValue c9 + hexValue c10), byte (16 * hexValue c11 + hexValue c12), byte (16 * hexValue c14 + hexValue c15), byte (16 * hexValue c16 + hexValue c17), byte (16 * hexValue c19 + hexValue c20), byte (16 * hexValue c21 + hexValue c22), byte (16 * hexValue c24 + hexValue c25), byte (16 * hexValue c26 + hexValue c27), byte (16 * hexValue c28 + hexValue c29), byte (16 * hexValue c30 + hexValue c31), byte (16 * hexValue c32 + hexValue c33), byte (16 * hexValue c34 + hexValue c35)], rfl⟩, none) := by
  have e0 := fromHexChar_of_hex (h c0 (by simp))
  have e1 := fromHexChar_of_hex (h c1 (by simp))
  have e2 := fromHexChar_of_hex (h c2 (by simp))
  have e3 := fromHexChar_of_hex (h c3 (by simp))
  have e4 := fromHexChar_of_hex (h c4 (by simp))
  have e5 := fromHexChar_of_hex (h c5 (by simp))
  have e6 := fromHexChar_of_hex (h c6 (by simp))
  have e7 := fromHexChar_of_hex (h c7 (by simp))
  have e9 := fromHexChar_of_hex (h c9 (by simp))
  have e10 := fromHexChar_of_hex (h c10 (by simp))
  have e11 := fromHexChar_of_hex (h c11 (by simp))
  have e12 := fromHexChar_of_hex (h c12 (by simp))
  have e14 := fromHexChar_of_hex (h c14 (by simp))
  have e15 := fromHexChar_of_hex (h c15 (by simp))
  have e16 := fromHexChar_of_hex (h c16 (by simp))
  have e17 := fromHexChar_of_hex (h c17 (by simp))
  have e19 := fromHexChar_of_hex (h c19 (by simp))
  have e20 := fromHexChar_of_hex (h c20 (by simp))
  have e21 := fromHexChar_of_hex (h c21 (by simp))
  have e22 := fromHexChar_of_hex (h c22 (by simp))
  have e24 := fromHexChar_of_hex (h c24 (by simp))
  have e25 := fromHexChar_of_hex (h c25 (by simp))
  have e26 := fromHexChar_of_hex (h c26 (by simp))
  have e27 := fromHexChar_of_hex (h c27 (by simp))
  have e28 := fromHexChar_of_hex (h c28 (by simp))
  have e29 := fromHexChar_of_hex (h c29 (by simp))
  have e30 := fromHexChar_of_hex (h c30 (by simp))
  have e31 := fromHexChar_of_hex (h c31 (by simp))
  have e32 := fromHexChar_of_hex (h c32 (by simp))
  have e33 := fromHexChar_of_hex (h c33 (by simp))
  have e34 := fromHexChar_of_hex (h c34 (by simp))
  have e35 := fromHexChar_of_hex (h c35 (by simp))
  simp [parseCanonical, parseCanonical.misplaced, parseCanonical.loop, index, bytesFrom, bytesTo,
    Slice.sliceTo, Slice.sliceFrom, Decode, Decode.loop, Arr.store, Arr.set, Arr.zero,
    List.replicate, combine_eq, e0, e1, e2, e3, e4, e5, e6, e7, e9, e10, e11, e12, e14, e15, e16, e17, e19, e20, e21, e22, e24, e25, e26, e27, e28, e29, e30, e31, e32, e33, e34, e35]

theorem Decode_total {n : Nat} : ∀ (k : Nat) (src : List Byte) (buf : Arr n) (dst : Slice) (i : Nat),
    src.length = 2 * k → i + k ≤ dst.len →
    ∃ buf1 i1 err, Decode.loop buf dst src i = Except.ok (buf1, i1, err)
      ∧ (err = none ↔ ∀ c ∈ src, isHexDigit c)
      ∧ (∀ e, err = some e → ∃ b ∈ src, ¬ isHexDigit b ∧ e = HexError.InvalidByteError b) := by
  intro k
  induction k with
  | zero =>
    intro src buf dst i hlen _
    obtain rfl : src = [] := List.length_eq_zero.mp (by simpa using hlen)
    exact ⟨buf, i, none, rfl, by simp, by simp⟩
  | succ k ih =>
    intro src buf dst i hlen hi
    obtain ⟨p, src, rfl, hlen1⟩ := list_succ (show src.length = (2 * k + 1) + 1 by omega)
    obtain ⟨q, src, rfl, hlen2⟩ := list_succ hlen1
    by_cases hp : isHexDigit p
    · by_cases hq : isHexDigit q
      · obtain ⟨buf1, i1, err, h1, h2, h3⟩ :=
          ih src (buf.set (dst.off + i) (byte ((byte (hexValue p)).val <<< 4 ||| (byte (hexValue q)).val)))
            dst (i + 1) hlen2 (by omega)
        refine ⟨buf1, i1, err, ?_, ?_, ?_⟩
        · simp [Decode.loop, fromHexChar_of_hex hp, fromHexChar_of_hex hq, Arr.store,
            show i < dst.len by omega, h1]
        · simp [h2, hp, hq]
        · intro e he
          obtain ⟨b, hb, hb2, hb3⟩ := h3 e he
          exact ⟨b, by simp [hb], hb2, hb3⟩
      · exact ⟨buf, i, some (HexError.InvalidByteError q),
          by simp [Decode.loop, fromHexChar_of_hex hp, fromHexChar_of_not_hex hq],
          by simp [hq], fun e he => ⟨q, by simp, hq, by simpa using he.symm⟩⟩
    · exact ⟨buf, i, some (HexError.InvalidByteError p),
        by simp [Decode.loop, fromHexChar_of_not_hex hp],
        by simp [hp], fun e he => ⟨p, by simp, hp, by simpa using he.symm⟩⟩


theorem Decode_spec {n : Nat} (k : Nat) (src : List Byte) (buf : Arr n) (dst : Slice)
    (hlen : src.length = 2 * k) (hk : k ≤ dst.len) :
    ∃ r, Decode buf dst src = Except.ok r
      ∧ (r.2.2 = none ↔ ∀ c ∈ src, isHexDigit c)
      ∧ (∀ e, r.2.2 = some e → ∃ b ∈ src, ¬ isHexDigit b ∧ e = HexError.InvalidByteError b) := by
  obtain ⟨buf1, i1, err, h1, h2, h3⟩ := Decode_total k src buf dst 0 hlen (by omega)
  exact ⟨(buf1, i1, err), h1, h2, h3⟩


theorem parseCanonical_nonhex (c0 c1 c2 c3 c4 c5 c6 c7 c9 c10 c11 c12 c14 c15 c16 c17 c19 c20 c21 c22 c24 c25 c26 c27 c28 c29 c30 c31 c32 c33 c34 c35 : Byte)
    (h : ¬ ∀ c ∈ [c0, c1, c2, c3, c4, c5, c6, c7] ++ [c9, c10, c11, c12] ++ [c14, c15, c16, c17] ++ [c19, c20, c21, c22] ++ [c24, c25, c26, c27, c28, c29, c30, c31, c32, c33, c34, c35], isHexDigit c) :
    ∃ b ∈ [c0, c1, c2, c3, c4, c5, c6, c7] ++ [c9, c10, c11, c12] ++ [c14, c15, c16, c17] ++ [c19, c20, c21, c22] ++ [c24, c25, c26, c27, c28, c29, c30, c31, c32, c33, c34, c35], ¬ isHexDigit b ∧
      parseCanonical [c0, c1, c2, c3, c4, c5, c6, c7, 45, c9, c10, c11, c12, 45, c14, c15, c16, c17, 45, c19, c20, c21, c22, 45, c24, c25, c26, c27, c28, c29, c30, c31, c32, c33, c34, c35]
        = Except.ok (Arr.zero 16, some (Error.hex (HexError.InvalidByteError b))) := by
  generalize hr : parseCanonical [c0, c1, c2, c3, c4, c5, c6, c7, 45, c9, c10, c11, c12, 45, c14, c15, c16, c17, 45, c19, c20, c21, c22, 45, c24, c25, c26, c27, c28, c29, c30, c31, c32, c33, c34, c35] = res
  simp only [List.mem_append]
  simp [parseCanonical, parseCanonical.misplaced, parseCanonical.loop, index, bytesFrom, bytesTo,
    Slice.sliceTo, Slice.sliceFrom] at hr
  obtain ⟨r0, hd0, hn0, he0⟩ := Decode_spec 4 [c0, c1, c2, c3, c4, c5, c6, c7] (Arr.zero 16) ⟨0, 4⟩ rfl (Nat.le_refl _)
  rw [hd0] at hr
  simp only [ok_bind] at hr
  rcases hh0 : r0.2.2 with _ | e
  swap
  · obtain ⟨b, hb, hnb, rfl⟩ := he0 e hh0
    simp only [hh0, ok_bind] at hr
    exact ⟨b, Or.inl (Or.inl (Or.inl (Or.inl hb))), hnb, hr.symm⟩
  simp only [hh0] at hr
  obtain ⟨r1, hd1, hn1, he1⟩ := Decode_spec 2 [c9, c10, c11, c12] r0.1 ⟨4, 2⟩ rfl (Nat.le_refl _)
  rw [hd1] at hr
  simp only [ok_bind] at hr
  rcases hh1 : r1.2.2 with _ | e
  swap
  · obtain ⟨b, hb, hnb, rfl⟩ := he1 e hh1
    simp only [hh1, ok_bind] at hr
    exact ⟨b, Or.inl (Or.inl (Or.inl (Or.inr hb))), hnb, hr.symm⟩
  simp only [hh1] at hr
  obtain ⟨r2, hd2, hn2, he2⟩ := Decode_spec 2 [c14, c15, c16, c17] r1.1 ⟨6, 2⟩ rfl (Nat.le_refl _)
  rw [hd2] at hr
  simp only [ok_bind] at hr
  rcases hh2 : r2.2.2 with _ | e
  swap
  · obtain ⟨b, hb, hnb, rfl⟩ := he2 e hh2
    simp only [hh2, ok_bind] at hr
    exact ⟨b, Or.inl (Or.inl (Or.inr hb)), hnb, hr.symm⟩
  simp only [hh2] at hr
  obtain ⟨r3, hd3, hn3, he3⟩ := Decode_spec 2 [c19, c20, c21, c22] r2.1 ⟨8, 2⟩ rfl (Nat.le_refl _)
  rw [hd3] at hr
  simp only [ok_bind] at hr
  rcases hh3 : r3.2.2 with _ | e
  swap
  · obtain ⟨b, hb, hnb, rfl⟩ := he3 e hh3
    simp only [hh3, ok_bind] at hr
    exact ⟨b, Or.inl (Or.inr hb), hnb, hr.symm⟩
  simp only [hh3] at hr
  obtain ⟨r4, hd4, hn4, he4⟩ := Decode_spec 6 [c24, c25, c26, c27, c28, c29, c30, c31, c32, c33, c34, c35] r3.1 ⟨10, 6⟩ rfl (Nat.le_refl _)
  rw [hd4] at hr
  simp only [ok_bind] at hr
  rcases hh4 : r4.2.2 with _ | e
  swap
  · obtain ⟨b, hb, hnb, rfl⟩ := he4 e hh4
    simp only [hh4, ok_bind] at hr
    exact ⟨b, Or.inr hb, hnb, hr.symm⟩
  simp only [hh4] at hr
  exfalso
  apply h
  intro c hc
  simp only [List.mem_append] at hc
  rcases hc with (((hc | hc) | hc) | hc) | hc
  · exact hn0.mp hh0 c hc
  · exact hn1.mp hh1 c hc
  · exact hn2.mp hh2 c hc
  · exact hn3.mp hh3 c hc
  · exact hn4.mp hh4 c hc
theorem isLowerHexDigit_hexDigit {d : Nat} (h : d < 16) : isLowerHexDigit (hexDigit d) := by
  revert d; decide

theorem isHexDigit_of_lower {c : Byte} (h : isLowerHexDigit c) : isHexDigit c := by
  unfold isLowerHexDigit at h; unfold isHexDigit; tauto

theorem hexValue_hexDigit {d : Nat} (h : d < 16) : hexValue (hexDigit d) = d := by
  revert d; decide

theorem isHexDigit_hi (b : Byte) : isHexDigit (hexDigit (b.val / 16)) :=
  isHexDigit_of_lower (isLowerHexDigit_hexDigit (by omega))

theorem isHexDigit_lo (b : Byte) : isHexDigit (hexDigit (b.val % 16)) :=
  isHexDigit_of_lower (isLowerHexDigit_hexDigit (by omega))

theorem byte_pair (b : Byte) :
    byte (16 * hexValue (hexDigit (b.val / 16)) + hexValue (hexDigit (b.val % 16))) = b := by
  rw [hexValue_hexDigit (by omega), hexValue_hexDigit (by omega)]
  apply Fin.ext
  simp only [byte]
  omega

theorem canonical_cons (b0 b1 b2 b3 b4 b5 b6 b7 b8 b9 b10 b11 b12 b13 b14 b15 : Byte) :
    canonical [b0, b1, b2, b3, b4, b5, b6, b7, b8, b9, b10, b11, b12, b13, b14, b15] = [(hexDigit (b0.val / 16)), (hexDigit (b0.val % 16)), (hexDigit (b1.val / 16)), (hexDigit (b1.val % 16)), (hexDigit (b2.val / 16)), (hexDigit (b2.val % 16)), (hexDigit (b3.val / 16)), (hexDigit (b3.val % 16)), 45, (hexDigit (b4.val / 16)), (hexDigit (b4.val % 16)), (hexDigit (b5.val / 16)), (hexDigit (b5.val % 16)), 45, (hexDigit (b6.val / 16)), (hexDigit (b6.val % 16)), (hexDigit (b7.val / 16)), (hexDigit (b7.val % 16)), 45, (hexDigit (b8.val / 16)), (hexDigit (b8.val % 16)), (hexDigit (b9.val / 16)), (hexDigit (b9.val % 16)), 45, (hexDigit (b10.val / 16)), (hexDigit (b10.val % 16)), (hexDigit (b11.val / 16)), (hexDigit (b11.val % 16)), (hexDigit (b12.val / 16)), (hexDigit (b12.val % 16)), (hexDigit (b13.val / 16)), (hexDigit (b13.val % 16)), (hexDigit (b14.val / 16)), (hexDigit (b14.val % 16)), (hexDigit (b15.val / 16)), (hexDigit (b15.val % 16))] := by
  simp [canonical, hexOf, ascii_hyphen]

theorem parseCanonical_canonical (U : UUID) : parseCanonical (canonical U.data) = Except.ok (U, none) := by
  obtain ⟨b0, b1, b2, b3, b4, b5, b6, b7, b8, b9, b10, b11, b12, b13, b14, b15, rfl⟩ := UUID_cases U
  rw [canonical_cons, parseCanonical_hex]
  · simp only [byte_pair]
  · intro c hc
    simp only [List.mem_cons, List.mem_singleton, List.not_mem_nil, or_false] at hc
    rcases hc with rfl | rfl | rfl | rfl | rfl | rfl | rfl | rfl | rfl | rfl | rfl | rfl | rfl | rfl | rfl | rfl | rfl | rfl | rfl | rfl | rfl | rfl | rfl | rfl | rfl | rfl | rfl | rfl | rfl | rfl | rfl | rfl <;>
      first | exact isHexDigit_hi _ | exact isHexDigit_lo _

theorem String_eq (U : UUID) : U.String = Except.ok (canonical U.data) := by
  simp [UUID.String, encodeHex_eq, bytesFrom]

set_option maxRecDepth 100000 in
theorem upperByte_hex : ∀ c : Byte, isHexDigit c →
    isHexDigit (upperByte c) ∧ hexValue (upperByte c) = hexValue c := by decide

set_option maxRecDepth 100000 in
theorem lowerByte_hex : ∀ c : Byte, isHexDigit c →
    isHexDigit (lowerByte c) ∧ hexValue (lowerByte c) = hexValue c := by decide

set_option maxRecDepth 100000 in
theorem hex_ne_hyphen : ∀ c : Byte, isHexDigit c → (c != 45) = true := by decide

theorem upperByte_hyphen : upperByte 45 = 45 := by decide

theorem lowerByte_hyphen : lowerByte 45 = 45 := by decide

/-- Shape of a well-formed text: its 36 bytes, with the hyphens in place and
the other 32 bytes hexadecimal digits. -/
theorem WellFormed_cases {s : GoString} (h : WellFormed s) :
    ∃ c0 c1 c2 c3 c4 c5 c6 c7 c9 c10 c11 c12 c14 c15 c16 c17 c19 c20 c21 c22 c24 c25 c26 c27 c28 c29 c30 c31 c32 c33 c34 c35 : Byte,
      s = [c0, c1, c2, c3, c4, c5, c6, c7, 45, c9, c10, c11, c12, 45, c14, c15, c16, c17, 45, c19, c20, c21, c22, 45, c24, c25, c26, c27, c28, c29, c30, c31, c32, c33, c34, c35]
        ∧ ∀ c ∈ [c0, c1, c2, c3, c4, c5, c6, c7, c9, c10, c11, c12, c14, c15, c16, c17, c19, c20, c21, c22, c24, c25, c26, c27, c28, c29, c30, c31, c32, c33, c34, c35], isHexDigit c := by
  obtain ⟨hlen, hhyph, hhex⟩ := h
  obtain ⟨c0, c1, c2, c3, c4, c5, c6, c7, c8, c9, c10, c11, c12, c13, c14, c15, c16, c17, c18, c19, c20, c21, c22, c23, c24, c25, c26, c27, c28, c29, c30, c31, c32, c33, c34, c35, rfl⟩ := string36_cases s hlen
  have e8 : c8 = 45 := by simpa [charAt] using hhyph 8 (by decide)
  have e13 : c13 = 45 := by simpa [charAt] using hhyph 13 (by decide)
  have e18 : c18 = 45 := by simpa [charAt] using hhyph 18 (by decide)
  have e23 : c23 = 45 := by simpa [charAt] using hhyph 23 (by decide)
  subst e8 e13 e18 e23
  have x0 : isHexDigit c0 := by simpa [hexAt] using hhex 0 (by decide) (by decide)
  have x1 : isHexDigit c1 := by simpa [hexAt] using hhex 1 (by decide) (by decide)
  have x2 : isHexDigit c2 := by simpa [hexAt] using hhex 2 (by decide) (by decide)
  have x3 : isHexDigit c3 := by simpa [hexAt] using hhex 3 (by decide) (by decide)
  have x4 : isHexDigit c4 := by simpa [hexAt] using hhex 4 (by decide) (by decide)
  have x5 : isHexDigit c5 := by simpa [hexAt] using hhex 5 (by decide) (by decide)
  have x6 : isHexDigit c6 := by simpa [hexAt] using hhex 6 (by decide) (by decide)
  have x7 : isHexDigit c7 := by simpa [hexAt] using hhex 7 (by decide) (by decide)
  have x9 : isHexDigit c9 := by simpa [hexAt] using hhex 9 (by decide) (by decide)
  have x10 : isHexDigit c10 := by simpa [hexAt] using hhex 10 (by decide) (by decide)
  have x11 : isHexDigit c11 := by simpa [hexAt] using hhex 11 (by decide) (by decide)
  have x12 : isHexDigit c12 := by simpa [hexAt] using hhex 12 (by decide) (by decide)
  have x14 : isHexDigit c14 := by simpa [hexAt] using hhex 14 (by decide) (by decide)
  have x15 : isHexDigit c15 := by simpa [hexAt] using hhex 15 (by decide) (by decide)
  have x16 : isHexDigit c16 := by simpa [hexAt] using hhex 16 (by decide) (by decide)
  have x17 : isHexDigit c17 := by simpa [hexAt] using hhex 17 (by decide) (by decide)
  have x19 : isHexDigit c19 := by simpa [hexAt] using hhex 19 (by decide) (by decide)
  have x20 : isHexDigit c20 := by simpa [hexAt] using hhex 20 (by decide) (by decide)
  have x21 : isHexDigit c21 := by simpa [hexAt] using hhex 21 (by decide) (by decide)
  have x22 : isHexDigit c22 := by simpa [hexAt] using hhex 22 (by decide) (by decide)
  have x24 : isHexDigit c24 := by simpa [hexAt] using hhex 24 (by decide) (by decide)
  have x25 : isHexDigit c25 := by simpa [hexAt] using hhex 25 (by decide) (by decide)
  have x26 : isHexDigit c26 := by simpa [hexAt] using hhex 26 (by decide) (by decide)
  have x27 : isHexDigit c27 := by simpa [hexAt] using hhex 27 (by decide) (by decide)
  have x28 : isHexDigit c28 := by simpa [hexAt] using hhex 28 (by decide) (by decide)
  have x29 : isHexDigit c29 := by simpa [hexAt] using hhex 29 (by decide) (by decide)
  have x30 : isHexDigit c30 := by simpa [hexAt] using hhex 30 (by decide) (by decide)
  have x31 : isHexDigit c31 := by simpa [hexAt] using hhex 31 (by decide) (by decide)
  have x32 : isHexDigit c32 := by simpa [hexAt] using hhex 32 (by decide) (by decide)
  have x33 : isHexDigit c33 := by simpa [hexAt] using hhex 33 (by decide) (by decide)
  have x34 : isHexDigit c34 := by simpa [hexAt] using hhex 34 (by decide) (by decide)
  have x35 : isHexDigit c35 := by simpa [hexAt] using hhex 35 (by decide) (by decide)
  refine ⟨c0, c1, c2, c3, c4, c5, c6, c7, c9, c10, c11, c12, c14, c15, c16, c17, c19, c20, c21, c22, c24, c25, c26, c27, c28, c29, c30, c31, c32, c33, c34, c35, rfl, ?_⟩
  intro c hc
  simp only [List.mem_cons, List.mem_singleton, List.not_mem_nil, or_false] at hc
  rcases hc with rfl | rfl | rfl | rfl | rfl | rfl | rfl | rfl | rfl | rfl | rfl | rfl | rfl | rfl | rfl | rfl | rfl | rfl | rfl | rfl | rfl | rfl | rfl | rfl | rfl | rfl | rfl | rfl | rfl | rfl | rfl | rfl <;> assumption

theorem misplaced_cons (c0 c1 c2 c3 c4 c5 c6 c7 c8 c9 c10 c11 c12 c13 c14 c15 c16 c17 c18 c19 c20 c21 c22 c23 c24 c25 c26 c27 c28 c29 c30 c31 c32 c33 c34 c35 : Byte) :
    parseCanonical.misplaced [c0, c1, c2, c3, c4, c5, c6, c7, c8, c9, c10, c11, c12, c13, c14, c15, c16, c17, c18, c19, c20, c21, c22, c23, c24, c25, c26, c27, c28, c29, c30, c31, c32, c33, c34, c35]
      = Except.ok (decide (¬ (c8 = 45 ∧ c13 = 45 ∧ c18 = 45 ∧ c23 = 45))) := by
  by_cases h8 : c8 = 45 <;> by_cases h13 : c13 = 45 <;> by_cases h18 : c18 = 45 <;>
    by_cases h23 : c23 = 45 <;> simp [parseCanonical.misplaced, index, h8, h13, h18, h23]

theorem parseLength_message (s : GoString) :
    ∃ t, (Error.parseLength s).message = ascii "uuid: invalid parse length" ++ t :=
  ⟨ascii " " ++ s, by
    rw [← List.append_assoc]
    exact congrArg (fun l => l ++ s) (by decide : ascii "uuid: invalid parse length "
      = ascii "uuid: invalid parse length" ++ ascii " ")⟩

theorem parseFormat_message (s : GoString) :
    ∃ t, (Error.parseFormat s).message = ascii "uuid: invalid parse format" ++ t :=
  ⟨ascii " " ++ s, by
    rw [← List.append_assoc]
    exact congrArg (fun l => l ++ s) (by decide : ascii "uuid: invalid parse format "
      = ascii "uuid: invalid parse format" ++ ascii " ")⟩

theorem bytesLength_message (n : Nat) (b : List Byte) :
    ∃ t, (Error.bytesLength n b).message = ascii "uuid: invalid parse length" ++ t :=
  ⟨ascii " (" ++ ascii (toString n) ++ ascii ") on " ++ sharpV b, by
    simp only [Error.message, ← List.append_assoc]
    exact congrArg (fun l => l ++ ascii (toString n) ++ ascii ") on " ++ sharpV b)
      (by decide : ascii "uuid: invalid parse length ("
        = ascii "uuid: invalid parse length" ++ ascii " (")⟩

set_option maxRecDepth 100000 in
theorem version_bits : ∀ b : Byte,
    (byte ((b.val &&& 0x0f) ||| 0x40)).val &&& 0xF0 = 0x40
      ∧ (byte ((b.val &&& 0x0f) ||| 0x40)).val &&& 0x0F = b.val &&& 0x0F
      ∧ byte ((b.val &&& 0x0f) ||| 0x40) ≠ 0 := by decide

set_option maxRecDepth 100000 in
theorem variant_bits : ∀ b : Byte,
    (byte ((b.val &&& 0x3f) ||| 0x80)).val &&& 0xC0 = 0x80
      ∧ (byte ((b.val &&& 0x3f) ||| 0x80)).val &&& 0x3F = b.val &&& 0x3F := by decide

theorem New_filled (b0 b1 b2 b3 b4 b5 b6 b7 b8 b9 b10 b11 b12 b13 b14 b15 : Byte) :
    New (Read.filled ⟨[b0, b1, b2, b3, b4, b5, b6, b7, b8, b9, b10, b11, b12, b13, b14, b15], rfl⟩)
      = Except.ok (⟨[b0, b1, b2, b3, b4, b5, byte ((b6.val &&& 0x0f) ||| 0x40), b7,
          byte ((b8.val &&& 0x3f) ||| 0x80), b9, b10, b11, b12, b13, b14, b15], rfl⟩, none) := by
  simp [New, index, Arr.store, Arr.set]

/-- The loop of `parseCanonical` on any 36 bytes: it ends without a panic, and
when it ends without an error `src` and `dst` are empty. -/
theorem loop_total (c0 c1 c2 c3 c4 c5 c6 c7 c8 c9 c10 c11 c12 c13 c14 c15 c16 c17 c18 c19 c20 c21 c22 c23 c24 c25 c26 c27 c28 c29 c30 c31 c32 c33 c34 c35 : Byte) :
    ∃ r, parseCanonical.loop [8, 4, 4, 4, 12] 0 (Arr.zero 16)
        [c0, c1, c2, c3, c4, c5, c6, c7, c8, c9, c10, c11, c12, c13, c14, c15, c16, c17, c18, c19, c20, c21, c22, c23, c24, c25, c26, c27, c28, c29, c30, c31, c32, c33, c34, c35] ⟨0, 16⟩ = Except.ok r
      ∧ (r.2.2.2 = none → r.2.1 = [] ∧ r.2.2.1 = ⟨16, 0⟩) := by
  generalize hr : parseCanonical.loop [8, 4, 4, 4, 12] 0 (Arr.zero 16)
    [c0, c1, c2, c3, c4, c5, c6, c7, c8, c9, c10, c11, c12, c13, c14, c15, c16, c17, c18, c19, c20, c21, c22, c23, c24, c25, c26, c27, c28, c29, c30, c31, c32, c33, c34, c35] ⟨0, 16⟩ = res
  simp [parseCanonical.loop, bytesFrom, bytesTo, Slice.sliceTo, Slice.sliceFrom] at hr
  obtain ⟨r0, hd0, -, -⟩ := Decode_spec 4 [c0, c1, c2, c3, c4, c5, c6, c7] (Arr.zero 16) ⟨0, 4⟩ rfl (Nat.le_refl _)
  rw [hd0] at hr
  simp only [ok_bind] at hr
  rcases hh0 : r0.2.2 with _ | e
  swap
  · simp only [hh0] at hr
    exact ⟨_, hr.symm, by simp⟩
  simp only [hh0] at hr
  obtain ⟨r1, hd1, -, -⟩ := Decode_spec 2 [c9, c10, c11, c12] r0.1 ⟨4, 2⟩ rfl (Nat.le_refl _)
  rw [hd1] at hr
  simp only [ok_bind] at hr
  rcases hh1 : r1.2.2 with _ | e
  swap
  · simp only [hh1] at hr
    exact ⟨_, hr.symm, by simp⟩
  simp only [hh1] at hr
  obtain ⟨r2, hd2, -, -⟩ := Decode_spec 2 [c14, c15, c16, c17] r1.1 ⟨6, 2⟩ rfl (Nat.le_refl _)
  rw [hd2] at hr
  simp only [ok_bind] at hr
  rcases hh2 : r2.2.2 with _ | e
  swap
  · simp only [hh2] at hr
    exact ⟨_, hr.symm, by simp⟩
  simp only [hh2] at hr
  obtain ⟨r3, hd3, -, -⟩ := Decode_spec 2 [c19, c20, c21, c22] r2.1 ⟨8, 2⟩ rfl (Nat.le_refl _)
  rw [hd3] at hr
  simp only [ok_bind] at hr
  rcases hh3 : r3.2.2 with _ | e
  swap
  · simp only [hh3] at hr
    exact ⟨_, hr.symm, by simp⟩
  simp only [hh3] at hr
  obtain ⟨r4, hd4, -, -⟩ := Decode_spec 6 [c24, c25, c26, c27, c28, c29, c30, c31, c32, c33, c34, c35] r3.1 ⟨10, 6⟩ rfl (Nat.le_refl _)
  rw [hd4] at hr
  simp only [ok_bind] at hr
  rcases hh4 : r4.2.2 with _ | e
  swap
  · simp only [hh4] at hr
    exact ⟨_, hr.symm, by simp⟩
  simp only [hh4] at hr
  exact ⟨_, hr.symm, by simp⟩

theorem parseCanonical_total (s : GoString) : ∃ r, parseCanonical s = Except.ok r := by
  by_cases hlen : s.length = 36
  · obtain ⟨c0, c1, c2, c3, c4, c5, c6, c7, c8, c9, c10, c11, c12, c13, c14, c15, c16, c17, c18, c19, c20, c21, c22, c23, c24, c25, c26, c27, c28, c29, c30, c31, c32, c33, c34, c35, rfl⟩ := string36_cases s hlen
    obtain ⟨r, hr, -⟩ := loop_total c0 c1 c2 c3 c4 c5 c6 c7 c8 c9 c10 c11 c12 c13 c14 c15 c16 c17 c18 c19 c20 c21 c22 c23 c24 c25 c26 c27 c28 c29 c30 c31 c32 c33 c34 c35
    simp only [parseCanonical, misplaced_cons, hr]
    by_cases hh : c8 = 45 ∧ c13 = 45 ∧ c18 = 45 ∧ c23 = 45
    · rcases he : r.2.2.2 with _ | e <;> simp [hh, he]
    · simp [hh]
  · exact ⟨(Arr.zero 16, some (Error.parseLength s)), by simp [parseCanonical, hlen]⟩

theorem parseCanonical_ok_wf {s : GoString} {u : UUID}
    (h : parseCanonical s = Except.ok (u, none)) : WellFormed s := by
  by_cases hlen : s.length = 36
  swap
  · simp [parseCanonical, hlen] at h
  obtain ⟨c0, c1, c2, c3, c4, c5, c6, c7, c8, c9, c10, c11, c12, c13, c14, c15, c16, c17, c18, c19, c20, c21, c22, c23, c24, c25, c26, c27, c28, c29, c30, c31, c32, c33, c34, c35, rfl⟩ := string36_cases s hlen
  by_cases hh : c8 = 45 ∧ c13 = 45 ∧ c18 = 45 ∧ c23 = 45
  swap
  · simp only [parseCanonical, misplaced_cons] at h
    simp [hh] at h
  obtain ⟨rfl, rfl, rfl, rfl⟩ := hh
  by_cases hx : ∀ c ∈ [c0, c1, c2, c3, c4, c5, c6, c7] ++ [c9, c10, c11, c12] ++ [c14, c15, c16, c17] ++ [c19, c20, c21, c22] ++ [c24, c25, c26, c27, c28, c29, c30, c31, c32, c33, c34, c35], isHexDigit c
  swap
  · obtain ⟨b, -, -, hb⟩ := parseCanonical_nonhex _ _ _ _ _ _ _ _ _ _ _ _ _ _ _ _ _ _ _ _ _ _ _ _ _ _ _ _ _ _ _ _ hx
    rw [hb] at h
    simp at h
  refine ⟨rfl, ?_, ?_⟩
  · intro i hi
    simp only [hyphenOffsets, List.mem_cons, List.mem_singleton, List.not_mem_nil, or_false] at hi
    rcases hi with rfl | rfl | rfl | rfl <;> rfl
  · intro i hi hn
    interval_cases i
    · exact hx c0 (by simp)
    · exact hx c1 (by simp)
    · exact hx c2 (by simp)
    · exact hx c3 (by simp)
    · exact hx c4 (by simp)
    · exact hx c5 (by simp)
    · exact hx c6 (by simp)
    · exact hx c7 (by simp)
    · exact absurd (by decide) hn
    · exact hx c9 (by simp)
    · exact hx c10 (by simp)
    · exact hx c11 (by simp)
    · exact hx c12 (by simp)
    · exact absurd (by decide) hn
    · exact hx c14 (by simp)
    · exact hx c15 (by simp)
    · exact hx c16 (by simp)
    · exact hx c17 (by simp)
    · exact absurd (by decide) hn
    · exact hx c19 (by simp)
    · exact hx c20 (by simp)
    · exact hx c21 (by simp)
    · exact hx c22 (by simp)
    · exact absurd (by decide) hn
    · exact hx c24 (by simp)
    · exact hx c25 (by simp)
    · exact hx c26 (by simp)
    · exact hx c27 (by simp)
    · exact hx c28 (by simp)
    · exact hx c29 (by simp)
    · exact hx c30 (by simp)
    · exact hx c31 (by simp)
    · exact hx c32 (by simp)
    · exact hx c33 (by simp)
    · exact hx c34 (by simp)
    · exact hx c35 (by simp)

set_option maxRecDepth 100000 in
theorem hexDigit_hexValue : ∀ c : Byte, isHexDigit c → hexDigit (hexValue c) = lowerHexLetter c := by
  decide

theorem lowerHexLetter_hyphen : lowerHexLetter 45 = 45 := by decide

theorem pair_hi (p q : Byte) (hp : isHexDigit p) :
    hexDigit ((byte (16 * hexValue p + hexValue q)).val / 16) = lowerHexLetter p := by
  have h1 := hexValue_lt p
  have h2 := hexValue_lt q
  rw [← hexDigit_hexValue p hp]
  congr 1
  simp only [byte]
  omega

theorem pair_lo (p q : Byte) (hq : isHexDigit q) :
    hexDigit ((byte (16 * hexValue p + hexValue q)).val % 16) = lowerHexLetter q := by
  have h1 := hexValue_lt p
  have h2 := hexValue_lt q
  rw [← hexDigit_hexValue q hq]
  congr 1
  simp only [byte]
  omega

theorem String_of_parse {s : GoString} {U : UUID} (h : parseCanonical s = Except.ok (U, none)) :
    U.String = Except.ok (s.map lowerHexLetter) := by
  obtain ⟨c0, c1, c2, c3, c4, c5, c6, c7, c9, c10, c11, c12, c14, c15, c16, c17, c19, c20, c21, c22, c24, c25, c26, c27, c28, c29, c30, c31, c32, c33, c34, c35, rfl, hx⟩ := WellFormed_cases (parseCanonical_ok_wf h)
  rw [parseCanonical_hex _ _ _ _ _ _ _ _ _ _ _ _ _ _ _ _ _ _ _ _ _ _ _ _ _ _ _ _ _ _ _ _ hx] at h
  obtain rfl : _ = U := by simpa using h
  rw [String_eq, canonical_cons]
  simp only [List.map, lowerHexLetter_hyphen]
  simp [pair_hi c0 c1 (hx c0 (by simp)), pair_lo c0 c1 (hx c1 (by simp)), pair_hi c2 c3 (hx c2 (by simp)), pair_lo c2 c3 (hx c3 (by simp)), pair_hi c4 c5 (hx c4 (by simp)), pair_lo c4 c5 (hx c5 (by simp)), pair_hi c6 c7 (hx c6 (by simp)), pair_lo c6 c7 (hx c7 (by simp)), pair_hi c9 c10 (hx c9 (by simp)), pair_lo c9 c10 (hx c10 (by simp)), pair_hi c11 c12 (hx c11 (by simp)), pair_lo c11 c12 (hx c12 (by simp)), pair_hi c14 c15 (hx c14 (by simp)), pair_lo c14 c15 (hx c15 (by simp)), pair_hi c16 c17 (hx c16 (by simp)), pair_lo c16 c17 (hx c17 (by simp)), pair_hi c19 c20 (hx c19 (by simp)), pair_lo c19 c20 (hx c20 (by simp)), pair_hi c21 c22 (hx c21 (by simp)), pair_lo c21 c22 (hx c22 (by simp)), pair_hi c24 c25 (hx c24 (by simp)), pair_lo c24 c25 (hx c25 (by simp)), pair_hi c26 c27 (hx c26 (by simp)), pair_lo c26 c27 (hx c27 (by simp)), pair_hi c28 c29 (hx c28 (by simp)), pair_lo c28 c29 (hx c29 (by simp)), pair_hi c30 c31 (hx c30 (by simp)), pair_lo c30 c31 (hx c31 (by simp)), pair_hi c32 c33 (hx c32 (by simp)), pair_lo c32 c33 (hx c33 (by simp)), pair_hi c34 c35 (hx c34 (by simp)), pair_lo c34 c35 (hx c35 (by simp))]

theorem parseBytes_total (b : List Byte) : ∃ r, parseBytes b = Except.ok r := by
  by_cases h : b.length = 16
  · exact ⟨((Arr.zero 16).copy b, none), by simp [parseBytes, h]⟩
  · exact ⟨(Arr.zero 16, some (Error.bytesLength b.length b)), by simp [parseBytes, h]⟩

theorem scan_of_parse {V : UUID} {src : Value} {u : UUID} {err : Option Error}
    (h : Parse src = Except.ok (u, err)) :
    scan V src = Except.ok (if err = none then u else V, err) := by
  cases err <;> simp [scan, h]

theorem scan_total (V : UUID) (src : Value) :
    ∃ r err, scan V src = Except.ok (r, err) ∧ (err ≠ none → r = V) := by
  have hp : ∃ u err, Parse src = Except.ok (u, err) := by
    cases src with
    | nil => exact ⟨_, _, rfl⟩
    | other t => exact ⟨_, _, rfl⟩
    | bytes b => obtain ⟨⟨u, err⟩, h⟩ := parseBytes_total b; exact ⟨u, err, h⟩
    | string s => obtain ⟨⟨u, err⟩, h⟩ := parseCanonical_total s; exact ⟨u, err, h⟩
  obtain ⟨u, err, h⟩ := hp
  refine ⟨_, err, scan_of_parse h, ?_⟩
  cases err <;> simp

theorem Scan_total (V : UUID) (src : Value) :
    ∃ r err, UUID.Scan V src = Except.ok (r, err) ∧ (err ≠ none → r = V) := by
  cases src with
  | nil => exact ⟨V, none, rfl, fun _ => rfl⟩
  | other t => exact ⟨V, _, rfl, fun _ => rfl⟩
  | bytes b =>
    simp only [UUID.Scan, scanBytes, scanString]
    by_cases h16 : b.length = 16
    · simpa [h16] using scan_total V (Value.bytes b)
    · by_cases h0 : b = []
      · exact ⟨V, none, by simp [h0], fun _ => rfl⟩
      · simpa [h16, h0] using scan_total V (Value.string b)
  | string s =>
    simp only [UUID.Scan, scanString]
    by_cases h0 : s = []
    · exact ⟨V, none, by simp [h0], fun _ => rfl⟩
    · simpa [h0] using scan_total V (Value.string s)

theorem UnmarshalText_total (V : UUID) (text : List Byte) :
    ∃ r err, UUID.UnmarshalText V text = Except.ok (r, err) ∧ (err ≠ none → r = V) := by
  obtain ⟨⟨u, err⟩, h⟩ := parseBytes_total text
  have h2 : Parse (Value.bytes text) = Except.ok (u, err) := h
  cases err with
  | none => exact ⟨u, none, by simp [UUID.UnmarshalText, h2], fun hn => absurd rfl hn⟩
  | some e => exact ⟨V, some e, by simp [UUID.UnmarshalText, h2], fun _ => rfl⟩

theorem map_lowerHexLetter_of_no_upper {s : GoString} (h : ∀ c ∈ s, ¬ isUpperLetter c) :
    s.map lowerHexLetter = s := by
  induction s with
  | nil => rfl
  | cons c t ih =>
    have hc : lowerHexLetter c = c := by
      have := h c (by simp)
      unfold isUpperLetter at this
      unfold lowerHexLetter
      rw [if_neg (by omega)]
    rw [List.map_cons, hc, ih (fun x hx => h x (by simp [hx]))]

/-! ## The claims -/

/-- C1 (string round trip): for every identifier `U`, `U.String()` returns a
string, and `parseCanonical` of that string succeeds with no error and
returns `U` itself. -/
theorem C1_string_round_trip (U : UUID) :
    ∃ s, U.String = Except.ok s ∧ parseCanonical s = Except.ok (U, none) :=
  ⟨canonical U.data, String_eq U, parseCanonical_canonical U⟩

/-- C2 (canonical encoding): for every identifier `U`, `encodeHex(U)` and
`U.String()` are the hexadecimal text of the byte ranges [0,4), [4,6), [6,8),
[8,10), [10,16) joined by hyphens, two lowercase digits per byte with the high
nibble first; that text has length 36, a hyphen at each of the offsets 8, 13,
18, 23 and a lowercase hexadecimal digit at every other offset; the
identifier of the tests encodes to `3d8338c3-7106-4d89-a813-9fd9b7955b55`. -/
theorem C2_canonical_encoding (U : UUID) :
    encodeHex U = Except.ok (canonical U.data)
      ∧ U.String = Except.ok (canonical U.data)
      ∧ (canonical U.data).length = 36
      ∧ (∀ i, i ∈ hyphenOffsets → charAt (canonical U.data) i 45)
      ∧ (∀ i, i < 36 → i ∉ hyphenOffsets → lowerHexAt (canonical U.data) i)
      ∧ sampleUUID.String = Except.ok sampleText := by
  refine ⟨encodeHex_eq U, String_eq U, ?_, ?_, ?_, by decide⟩
  · obtain ⟨b0, b1, b2, b3, b4, b5, b6, b7, b8, b9, b10, b11, b12, b13, b14, b15, rfl⟩ := UUID_cases U
    rw [canonical_cons]; rfl
  · obtain ⟨b0, b1, b2, b3, b4, b5, b6, b7, b8, b9, b10, b11, b12, b13, b14, b15, rfl⟩ := UUID_cases U
    rw [canonical_cons]
    simp [hyphenOffsets, charAt]
  · obtain ⟨b0, b1, b2, b3, b4, b5, b6, b7, b8, b9, b10, b11, b12, b13, b14, b15, rfl⟩ := UUID_cases U
    rw [canonical_cons]
    intro i hi hn
    have loD : ∀ b : Byte, isLowerHexDigit (hexDigit (b.val % 16)) :=
      fun b => isLowerHexDigit_hexDigit (by omega)
    have hiD : ∀ b : Byte, isLowerHexDigit (hexDigit (b.val / 16)) :=
      fun b => isLowerHexDigit_hexDigit (by omega)
    interval_cases i <;> first | exact absurd (by decide) hn | exact loD _ | exact hiD _


/-- C3 (canonical decoding of well-formed text): for every well-formed text
`s` (36 bytes, hyphens at the offsets 8, 13, 18, 23, a hexadecimal digit of
either case at each other offset) `parseCanonical(s)` succeeds, byte `i` of the
result is the value of the `i`-th pair of hexadecimal digits of `s` with the
hyphens removed, and the uppercase and the lowercase spelling of `s` decode to
that same identifier. -/
theorem C3_decode_well_formed (s : GoString) (h : WellFormed s) :
    ∃ u : UUID, parseCanonical s = Except.ok (u, none)
      ∧ (∀ i, i < 16 → u.data[i]? = some (pairValue s i))
      ∧ parseCanonical (s.map upperByte) = Except.ok (u, none)
      ∧ parseCanonical (s.map lowerByte) = Except.ok (u, none) := by
  obtain ⟨c0, c1, c2, c3, c4, c5, c6, c7, c9, c10, c11, c12, c14, c15, c16, c17, c19, c20, c21, c22, c24, c25, c26, c27, c28, c29, c30, c31, c32, c33, c34, c35, rfl, hx⟩ := WellFormed_cases h
  refine ⟨_, parseCanonical_hex _ _ _ _ _ _ _ _ _ _ _ _ _ _ _ _ _ _ _ _ _ _ _ _ _ _ _ _ _ _ _ _ hx, ?_, ?_, ?_⟩
  · have hd : digitsOf [c0, c1, c2, c3, c4, c5, c6, c7, 45, c9, c10, c11, c12, 45, c14, c15, c16, c17, 45, c19, c20, c21, c22, 45, c24, c25, c26, c27, c28, c29, c30, c31, c32, c33, c34, c35]
        = [c0, c1, c2, c3, c4, c5, c6, c7, c9, c10, c11, c12, c14, c15, c16, c17, c19, c20, c21, c22, c24, c25, c26, c27, c28, c29, c30, c31, c32, c33, c34, c35] := by
      simp only [digitsOf]
      simp [List.filter, hex_ne_hyphen c0 (hx c0 (by simp)), hex_ne_hyphen c1 (hx c1 (by simp)), hex_ne_hyphen c2 (hx c2 (by simp)), hex_ne_hyphen c3 (hx c3 (by simp)), hex_ne_hyphen c4 (hx c4 (by simp)), hex_ne_hyphen c5 (hx c5 (by simp)), hex_ne_hyphen c6 (hx c6 (by simp)), hex_ne_hyphen c7 (hx c7 (by simp)), hex_ne_hyphen c9 (hx c9 (by simp)), hex_ne_hyphen c10 (hx c10 (by simp)), hex_ne_hyphen c11 (hx c11 (by simp)), hex_ne_hyphen c12 (hx c12 (by simp)), hex_ne_hyphen c14 (hx c14 (by simp)), hex_ne_hyphen c15 (hx c15 (by simp)), hex_ne_hyphen c16 (hx c16 (by simp)), hex_ne_hyphen c17 (hx c17 (by simp)), hex_ne_hyphen c19 (hx c19 (by simp)), hex_ne_hyphen c20 (hx c20 (by simp)), hex_ne_hyphen c21 (hx c21 (by simp)), hex_ne_hyphen c22 (hx c22 (by simp)), hex_ne_hyphen c24 (hx c24 (by simp)), hex_ne_hyphen c25 (hx c25 (by simp)), hex_ne_hyphen c26 (hx c26 (by simp)), hex_ne_hyphen c27 (hx c27 (by simp)), hex_ne_hyphen c28 (hx c28 (by simp)), hex_ne_hyphen c29 (hx c29 (by simp)), hex_ne_hyphen c30 (hx c30 (by simp)), hex_ne_hyphen c31 (hx c31 (by simp)), hex_ne_hyphen c32 (hx c32 (by simp)), hex_ne_hyphen c33 (hx c33 (by simp)), hex_ne_hyphen c34 (hx c34 (by simp)), hex_ne_hyphen c35 (hx c35 (by simp))]
    intro i hi
    interval_cases i <;> simp [pairValue, hd]
  · simp only [List.map, upperByte_hyphen]
    rw [parseCanonical_hex]
    · simp [(upperByte_hex c0 (hx c0 (by simp))).2, (upperByte_hex c1 (hx c1 (by simp))).2, (upperByte_hex c2 (hx c2 (by simp))).2, (upperByte_hex c3 (hx c3 (by simp))).2, (upperByte_hex c4 (hx c4 (by simp))).2, (upperByte_hex c5 (hx c5 (by simp))).2, (upperByte_hex c6 (hx c6 (by simp))).2, (upperByte_hex c7 (hx c7 (by simp))).2, (upperByte_hex c9 (hx c9 (by simp))).2, (upperByte_hex c10 (hx c10 (by simp))).2, (upperByte_hex c11 (hx c11 (by simp))).2, (upperByte_hex c12 (hx c12 (by simp))).2, (upperByte_hex c14 (hx c14 (by simp))).2, (upperByte_hex c15 (hx c15 (by simp))).2, (upperByte_hex c16 (hx c16 (by simp))).2, (upperByte_hex c17 (hx c17 (by simp))).2, (upperByte_hex c19 (hx c19 (by simp))).2, (upperByte_hex c20 (hx c20 (by simp))).2, (upperByte_hex c21 (hx c21 (by simp))).2, (upperByte_hex c22 (hx c22 (by simp))).2, (upperByte_hex c24 (hx c24 (by simp))).2, (upperByte_hex c25 (hx c25 (by simp))).2, (upperByte_hex c26 (hx c26 (by simp))).2, (upperByte_hex c27 (hx c27 (by simp))).2, (upperByte_hex c28 (hx c28 (by simp))).2, (upperByte_hex c29 (hx c29 (by simp))).2, (upperByte_hex c30 (hx c30 (by simp))).2, (upperByte_hex c31 (hx c31 (by simp))).2, (upperByte_hex c32 (hx c32 (by simp))).2, (upperByte_hex c33 (hx c33 (by simp))).2, (upperByte_hex c34 (hx c34 (by simp))).2, (upperByte_hex c35 (hx c35 (by simp))).2]
    · intro c hc
      simp only [List.mem_cons, List.mem_singleton, List.not_mem_nil, or_false] at hc
      rcases hc with rfl | rfl | rfl | rfl | rfl | rfl | rfl | rfl | rfl | rfl | rfl | rfl | rfl | rfl | rfl | rfl | rfl | rfl | rfl | rfl | rfl | rfl | rfl | rfl | rfl | rfl | rfl | rfl | rfl | rfl | rfl | rfl <;>
        exact (upperByte_hex _ (hx _ (by simp))).1
  · simp only [List.map, lowerByte_hyphen]
    rw [parseCanonical_hex]
    · simp [(lowerByte_hex c0 (hx c0 (by simp))).2, (lowerByte_hex c1 (hx c1 (by simp))).2, (lowerByte_hex c2 (hx c2 (by simp))).2, (lowerByte_hex c3 (hx c3 (by simp))).2, (lowerByte_hex c4 (hx c4 (by simp))).2, (lowerByte_hex c5 (hx c5 (by simp))).2, (lowerByte_hex c6 (hx c6 (by simp))).2, (lowerByte_hex c7 (hx c7 (by simp))).2, (lowerByte_hex c9 (hx c9 (by simp))).2, (lowerByte_hex c10 (hx c10 (by simp))).2, (lowerByte_hex c11 (hx c11 (by simp))).2, (lowerByte_hex c12 (hx c12 (by simp))).2, (lowerByte_hex c14 (hx c14 (by simp))).2, (lowerByte_hex c15 (hx c15 (by simp))).2, (lowerByte_hex c16 (hx c16 (by simp))).2, (lowerByte_hex c17 (hx c17 (by simp))).2, (lowerByte_hex c19 (hx c19 (by simp))).2, (lowerByte_hex c20 (hx c20 (by simp))).2, (lowerByte_hex c21 (hx c21 (by simp))).2, (lowerByte_hex c22 (hx c22 (by simp))).2, (lowerByte_hex c24 (hx c24 (by simp))).2, (lowerByte_hex c25 (hx c25 (by simp))).2, (lowerByte_hex c26 (hx c26 (by simp))).2, (lowerByte_hex c27 (hx c27 (by simp))).2, (lowerByte_hex c28 (hx c28 (by simp))).2, (lowerByte_hex c29 (hx c29 (by simp))).2, (lowerByte_hex c30 (hx c30 (by simp))).2, (lowerByte_hex c31 (hx c31 (by simp))).2, (lowerByte_hex c32 (hx c32 (by simp))).2, (lowerByte_hex c33 (hx c33 (by simp))).2, (lowerByte_hex c34 (hx c34 (by simp))).2, (lowerByte_hex c35 (hx c35 (by simp))).2]
    · intro c hc
      simp only [List.mem_cons, List.mem_singleton, List.not_mem_nil, or_false] at hc
      rcases hc with rfl | rfl | rfl | rfl | rfl | rfl | rfl | rfl | rfl | rfl | rfl | rfl | rfl | rfl | rfl | rfl | rfl | rfl | rfl | rfl | rfl | rfl | rfl | rfl | rfl | rfl | rfl | rfl | rfl | rfl | rfl | rfl <;>
        exact (lowerByte_hex _ (hx _ (by simp))).1

/-- Witness of C3: the text of the tests is well formed and decodes to the
identifier of the tests. -/
theorem C3_decode_well_formed_witness :
    WellFormed sampleText ∧ parseCanonical sampleText = Except.ok (sampleUUID, none)
      ∧ ∃ u : UUID, parseCanonical sampleText = Except.ok (u, none)
        ∧ (∀ i, i < 16 → u.data[i]? = some (pairValue sampleText i))
        ∧ parseCanonical (sampleText.map upperByte) = Except.ok (u, none)
        ∧ parseCanonical (sampleText.map lowerByte) = Except.ok (u, none) :=
  ⟨by decide, by decide, C3_decode_well_formed sampleText (by decide)⟩

/-- C4 (text unmarshal), evaluated on the code: on the 36 bytes of the
canonical text of the tests, which `parseCanonical` decodes to the identifier
of the tests, `UnmarshalText` returns the length error of `parseBytes` and
leaves the target as it was, whatever the target holds. -/
theorem C4_unmarshalText_on_canonical_text (V : UUID) :
    UUID.UnmarshalText V sampleText = Except.ok (V, some (Error.bytesLength 36 sampleText))
      ∧ parseCanonical sampleText = Except.ok (sampleUUID, none)
      ∧ sampleUUID.MarshalText = Except.ok (sampleText, none) := by
  refine ⟨?_, by decide, by decide⟩
  have h : parseBytes sampleText = Except.ok (Arr.zero 16, some (Error.bytesLength 36 sampleText)) := by
    decide
  simp [UUID.UnmarshalText, Parse, h]

/-- C5 (string length rejection): for every string whose length is not 36,
`parseCanonical` returns the zero identifier and the error of
`fmt.Errorf("uuid: invalid parse length %s", s)`, whose text starts with
`uuid: invalid parse length`. -/
theorem C5_string_length_rejection (s : GoString) (h : s.length ≠ 36) :
    parseCanonical s = Except.ok (Arr.zero 16, some (Error.parseLength s))
      ∧ ∃ t, (Error.parseLength s).message = ascii "uuid: invalid parse length" ++ t :=
  ⟨by simp [parseCanonical, h], parseLength_message s⟩

/-- Witness of C5: the 37-byte text of the tests. -/
theorem C5_string_length_rejection_witness :
    longText.length ≠ 36
      ∧ parseCanonical longText = Except.ok (Arr.zero 16, some (Error.parseLength longText))
      ∧ ∃ t, (Error.parseLength longText).message = ascii "uuid: invalid parse length" ++ t :=
  ⟨by decide, C5_string_length_rejection longText (by decide)⟩

/-- C6 (hyphen-placement rejection): for every 36-byte string in which the
byte at one of the offsets 8, 13, 18, 23 is not a hyphen, whatever the other
bytes are, `parseCanonical` returns the zero identifier and the error of
`fmt.Errorf("uuid: invalid parse format %s", s)`, whose text starts with
`uuid: invalid parse format`. -/
theorem C6_hyphen_rejection (s : GoString) (hlen : s.length = 36)
    (h : ∃ i, i ∈ hyphenOffsets ∧ ¬ charAt s i 45) :
    parseCanonical s = Except.ok (Arr.zero 16, some (Error.parseFormat s))
      ∧ ∃ t, (Error.parseFormat s).message = ascii "uuid: invalid parse format" ++ t := by
  refine ⟨?_, parseFormat_message s⟩
  obtain ⟨c0, c1, c2, c3, c4, c5, c6, c7, c8, c9, c10, c11, c12, c13, c14, c15, c16, c17, c18, c19, c20, c21, c22, c23, c24, c25, c26, c27, c28, c29, c30, c31, c32, c33, c34, c35, rfl⟩ := string36_cases s hlen
  have hne : ¬ (c8 = 45 ∧ c13 = 45 ∧ c18 = 45 ∧ c23 = 45) := by
    rintro ⟨rfl, rfl, rfl, rfl⟩
    obtain ⟨i, hi, hn⟩ := h
    simp only [hyphenOffsets, List.mem_cons, List.mem_singleton, List.not_mem_nil, or_false] at hi
    rcases hi with rfl | rfl | rfl | rfl <;> exact hn rfl
  simp only [parseCanonical, misplaced_cons]
  simp [hne]

/-- Witness of C6: the 36-byte text without hyphens of the tests. -/
theorem C6_hyphen_rejection_witness :
    malformedText.length = 36 ∧ (∃ i, i ∈ hyphenOffsets ∧ ¬ charAt malformedText i 45)
      ∧ parseCanonical malformedText
          = Except.ok (Arr.zero 16, some (Error.parseFormat malformedText))
      ∧ ∃ t, (Error.parseFormat malformedText).message = ascii "uuid: invalid parse format" ++ t :=
  ⟨by decide, ⟨8, by decide, by decide⟩,
    C6_hyphen_rejection malformedText (by decide) ⟨8, by decide, by decide⟩⟩

/-- C7 (non-hex rejection without partial result): for every 36-byte string
with hyphens at the offsets 8, 13, 18, 23 in which the byte at one of the
other offsets is not a hexadecimal digit, `parseCanonical` returns the zero
identifier and the error `hex.InvalidByteError(b)` of the hex codec, for a
byte `b` of the string that is not a hexadecimal digit; that error is neither
of the two length and format errors. -/
theorem C7_non_hex_rejection (s : GoString) (hlen : s.length = 36)
    (hhyph : ∀ i, i ∈ hyphenOffsets → charAt s i 45)
    (hbad : ∃ i, i < 36 ∧ i ∉ hyphenOffsets ∧ ¬ hexAt s i) :
    ∃ b, b ∈ s ∧ ¬ isHexDigit b
      ∧ parseCanonical s
          = Except.ok (Arr.zero 16, some (Error.hex (HexError.InvalidByteError b)))
      ∧ Error.hex (HexError.InvalidByteError b) ≠ Error.parseLength s
      ∧ Error.hex (HexError.InvalidByteError b) ≠ Error.parseFormat s := by
  obtain ⟨c0, c1, c2, c3, c4, c5, c6, c7, c8, c9, c10, c11, c12, c13, c14, c15, c16, c17, c18, c19, c20, c21, c22, c23, c24, c25, c26, c27, c28, c29, c30, c31, c32, c33, c34, c35, rfl⟩ := string36_cases s hlen
  have e8 : c8 = 45 := by simpa [charAt] using hhyph 8 (by decide)
  have e13 : c13 = 45 := by simpa [charAt] using hhyph 13 (by decide)
  have e18 : c18 = 45 := by simpa [charAt] using hhyph 18 (by decide)
  have e23 : c23 = 45 := by simpa [charAt] using hhyph 23 (by decide)
  subst e8 e13 e18 e23
  have hnot : ¬ ∀ c ∈ [c0, c1, c2, c3, c4, c5, c6, c7] ++ [c9, c10, c11, c12] ++ [c14, c15, c16, c17] ++ [c19, c20, c21, c22] ++ [c24, c25, c26, c27, c28, c29, c30, c31, c32, c33, c34, c35], isHexDigit c := by
    intro hall
    obtain ⟨i, hi, hn, hb⟩ := hbad
    interval_cases i
    · exact hb (hall c0 (by simp))
    · exact hb (hall c1 (by simp))
    · exact hb (hall c2 (by simp))
    · exact hb (hall c3 (by simp))
    · exact hb (hall c4 (by simp))
    · exact hb (hall c5 (by simp))
    · exact hb (hall c6 (by simp))
    · exact hb (hall c7 (by simp))
    · exact hn (by decide)
    · exact hb (hall c9 (by simp))
    · exact hb (hall c10 (by simp))
    · exact hb (hall c11 (by simp))
    · exact hb (hall c12 (by simp))
    · exact hn (by decide)
    · exact hb (hall c14 (by simp))
    · exact hb (hall c15 (by simp))
    · exact hb (hall c16 (by simp))
    · exact hb (hall c17 (by simp))
    · exact hn (by decide)
    · exact hb (hall c19 (by simp))
    · exact hb (hall c20 (by simp))
    · exact hb (hall c21 (by simp))
    · exact hb (hall c22 (by simp))
    · exact hn (by decide)
    · exact hb (hall c24 (by simp))
    · exact hb (hall c25 (by simp))
    · exact hb (hall c26 (by simp))
    · exact hb (hall c27 (by simp))
    · exact hb (hall c28 (by simp))
    · exact hb (hall c29 (by simp))
    · exact hb (hall c30 (by simp))
    · exact hb (hall c31 (by simp))
    · exact hb (hall c32 (by simp))
    · exact hb (hall c33 (by simp))
    · exact hb (hall c34 (by simp))
    · exact hb (hall c35 (by simp))
  obtain ⟨b, hb, hnb, heq⟩ := parseCanonical_nonhex _ _ _ _ _ _ _ _ _ _ _ _ _ _ _ _ _ _ _ _ _ _ _ _ _ _ _ _ _ _ _ _ hnot
  refine ⟨b, ?_, hnb, heq, by simp, by simp⟩
  simp only [List.mem_append, List.mem_cons, List.mem_singleton, List.not_mem_nil, or_false] at hb
  rcases hb with (((hb | hb) | hb) | hb) | hb
  · rcases hb with rfl | rfl | rfl | rfl | rfl | rfl | rfl | rfl <;> simp
  · rcases hb with rfl | rfl | rfl | rfl <;> simp
  · rcases hb with rfl | rfl | rfl | rfl <;> simp
  · rcases hb with rfl | rfl | rfl | rfl <;> simp
  · rcases hb with rfl | rfl | rfl | rfl | rfl | rfl | rfl | rfl | rfl | rfl | rfl | rfl <;> simp

/-- Witness of C7: the text of the tests with a `g` as its last digit, so that
the first four groups decode before the invalid one. -/
theorem C7_non_hex_rejection_witness :
    nonHexText.length = 36 ∧ (∀ i, i ∈ hyphenOffsets → charAt nonHexText i 45)
      ∧ (∃ i, i < 36 ∧ i ∉ hyphenOffsets ∧ ¬ hexAt nonHexText i)
      ∧ ∃ b, b ∈ nonHexText ∧ ¬ isHexDigit b
        ∧ parseCanonical nonHexText
            = Except.ok (Arr.zero 16, some (Error.hex (HexError.InvalidByteError b)))
        ∧ Error.hex (HexError.InvalidByteError b) ≠ Error.parseLength nonHexText
        ∧ Error.hex (HexError.InvalidByteError b) ≠ Error.parseFormat nonHexText :=
  ⟨by decide, by decide, ⟨35, by decide, by decide, by decide⟩,
    C7_non_hex_rejection nonHexText (by decide) (by decide) ⟨35, by decide, by decide, by decide⟩⟩

/-- C8 (raw-buffer round trip): for every buffer `B` of 16 bytes,
`parseBytes(B)` succeeds with no error and `Bytes()` of the identifier it
returns is `B`. -/
theorem C8_raw_buffer_round_trip (B : List Byte) (h : B.length = 16) :
    ∃ u : UUID, parseBytes B = Except.ok (u, none) ∧ u.Bytes = B := by
  refine ⟨(Arr.zero 16).copy B, by simp [parseBytes, h], ?_⟩
  simp [UUID.Bytes, Arr.copy, Arr.zero, h, List.take_of_length_le]

/-- Witness of C8: the sixteen bytes of the tests. -/
theorem C8_raw_buffer_round_trip_witness :
    sampleUUID.data.length = 16
      ∧ ∃ u : UUID, parseBytes sampleUUID.data = Except.ok (u, none) ∧ u.Bytes = sampleUUID.data :=
  ⟨by decide, C8_raw_buffer_round_trip sampleUUID.data (by decide)⟩

/-- C9 (raw-buffer length rejection): for every buffer whose length is not 16,
`parseBytes` returns the zero identifier and the error of
`fmt.Errorf("uuid: invalid parse length (%d) on %#v", len(b), b)`, whose text
starts with `uuid: invalid parse length`. -/
theorem C9_raw_buffer_length_rejection (b : List Byte) (h : b.length ≠ 16) :
    parseBytes b = Except.ok (Arr.zero 16, some (Error.bytesLength b.length b))
      ∧ ∃ t, (Error.bytesLength b.length b).message = ascii "uuid: invalid parse length" ++ t :=
  ⟨by simp [parseBytes, h], bytesLength_message _ _⟩

/-- Witness of C9: the 17-byte buffer of the tests. -/
theorem C9_raw_buffer_length_rejection_witness :
    longBuffer.length ≠ 16
      ∧ parseBytes longBuffer = Except.ok (Arr.zero 16, some (Error.bytesLength longBuffer.length longBuffer))
      ∧ ∃ t, (Error.bytesLength longBuffer.length longBuffer).message
          = ascii "uuid: invalid parse length" ++ t :=
  ⟨by decide, C9_raw_buffer_length_rejection longBuffer (by decide)⟩

/-- C10 (generic parse dispatch): `Parse` of a string is `parseCanonical` of
it, `Parse` of a byte buffer is `parseBytes` of it, and `Parse` of a value of
any other dynamic type (the nil interface included) returns the zero
identifier and the error of
`fmt.Errorf("uuid: could not parse uuid from type %T", src)`, whose text names
the type. -/
theorem C10_parse_dispatch :
    (∀ s, Parse (Value.string s) = parseCanonical s)
      ∧ (∀ b, Parse (Value.bytes b) = parseBytes b)
      ∧ (∀ t, Parse (Value.other t) = Except.ok (Arr.zero 16, some (Error.parseType t)))
      ∧ Parse Value.nil = Except.ok (Arr.zero 16, some (Error.parseType (ascii "<nil>")))
      ∧ (∀ t, (Error.parseType t).message = ascii "uuid: could not parse uuid from type " ++ t) :=
  ⟨fun _ => rfl, fun _ => rfl, fun _ => rfl, rfl, fun _ => rfl⟩

/-- C11 (generation tagging): for every sixteen bytes `r` delivered by the
randomness source, `New` returns an identifier `U` and no error, with
`U[6] & 0xF0 == 0x40`, `U[8] & 0xC0 == 0x80`, `U[6] & 0x0F == r[6] & 0x0F`,
`U[8] & 0x3F == r[8] & 0x3F`, and `U[i] == r[i]` for every `i` other than 6
and 8. -/
theorem C11_generation_tagging (r : UUID) :
    ∃ U : UUID, New (Read.filled r) = Except.ok (U, none)
      ∧ (U.byteAt 6).val &&& 0xF0 = 0x40
      ∧ (U.byteAt 8).val &&& 0xC0 = 0x80
      ∧ (U.byteAt 6).val &&& 0x0F = (r.byteAt 6).val &&& 0x0F
      ∧ (U.byteAt 8).val &&& 0x3F = (r.byteAt 8).val &&& 0x3F
      ∧ ∀ i, i ≠ 6 → i ≠ 8 → U.byteAt i = r.byteAt i := by
  obtain ⟨b0, b1, b2, b3, b4, b5, b6, b7, b8, b9, b10, b11, b12, b13, b14, b15, rfl⟩ := UUID_cases r
  refine ⟨_, New_filled _ _ _ _ _ _ _ _ _ _ _ _ _ _ _ _, (version_bits b6).1, (variant_bits b8).1,
    (version_bits b6).2.1, (variant_bits b8).2, ?_⟩
  intro i h6 h8
  by_cases hi : i < 16
  · interval_cases i <;> first | rfl | exact absurd rfl h6 | exact absurd rfl h8
  · simp only [UUID.byteAt]
    rw [List.getD_eq_default _ _ (by simp; omega), List.getD_eq_default _ _ (by simp; omega)]

/-- C12 (equality): `Equal(u1, u2)` is true exactly when `u1[i] == u2[i]` for
every `i` below sixteen; `Equal(U, U)` is true; on the identifier of the tests
`Equal` is true against itself and false against the identifier that differs
from it in byte 0 (0x3d against 0x3e). -/
theorem C12_equality (u1 u2 : UUID) :
    (Equal u1 u2 = true ↔ ∀ i, i < 16 → u1.byteAt i = u2.byteAt i)
      ∧ (Equal u1 u2 = false ↔ ∃ i, i < 16 ∧ u1.byteAt i ≠ u2.byteAt i)
      ∧ Equal u1 u1 = true
      ∧ Equal sampleUUID sampleUUID = true
      ∧ Equal sampleUUID otherUUID = false := by
  have key : Equal u1 u2 = true ↔ ∀ i, i < 16 → u1.byteAt i = u2.byteAt i := by
    obtain ⟨b0, b1, b2, b3, b4, b5, b6, b7, b8, b9, b10, b11, b12, b13, b14, b15, rfl⟩ := UUID_cases u1
    obtain ⟨c0, c1, c2, c3, c4, c5, c6, c7, c8, c9, c10, c11, c12, c13, c14, c15, rfl⟩ := UUID_cases u2
    constructor
    · intro h
      simp only [Equal, UUID.Bytes, decide_eq_true_eq] at h
      intro i _
      simp only [UUID.byteAt, h]
    · intro h
      have h0 := h 0 (by decide); have h1 := h 1 (by decide); have h2 := h 2 (by decide)
      have h3 := h 3 (by decide); have h4 := h 4 (by decide); have h5 := h 5 (by decide)
      have h6 := h 6 (by decide); have h7 := h 7 (by decide); have h8 := h 8 (by decide)
      have h9 := h 9 (by decide); have h10 := h 10 (by decide); have h11 := h 11 (by decide)
      have h12 := h 12 (by decide); have h13 := h 13 (by decide); have h14 := h 14 (by decide)
      have h15 := h 15 (by decide)
      simp only [UUID.byteAt, List.getD_cons_zero, List.getD_cons_succ] at h0 h1 h2 h3 h4 h5 h6 h7 h8 h9 h10 h11 h12 h13 h14 h15
      simp [Equal, UUID.Bytes, h0, h1, h2, h3, h4, h5, h6, h7, h8, h9, h10, h11, h12, h13, h14, h15]
  refine ⟨key, ?_, by simp [Equal], by decide, by decide⟩
  rw [← Bool.not_eq_true, key]
  push_neg
  rfl

/-- C13 (scan of an absent value): for every value `V` of the target,
`Scan(nil)` and `Scan("")` return no error and leave the target equal to `V`. -/
theorem C13_scan_absent (V : UUID) :
    UUID.Scan V Value.nil = Except.ok (V, none)
      ∧ UUID.Scan V (Value.string []) = Except.ok (V, none)
      ∧ ascii "" = [] :=
  ⟨rfl, rfl, rfl⟩

/-- C14 (scan agrees with direct parsing): for every target `V`, every
non-empty string `s` and every buffer `b` of 16 bytes, `Scan(s)` returns the
error that `parseCanonical(s)` returns and, when that is no error, the target
holds the identifier `parseCanonical(s)` returns (otherwise it stays `V`);
`Scan(b)` returns no error and the target holds the bytes of `b`, which is
what `parseBytes(b)` returns; on a value of any other dynamic type `Scan`
returns the error of `fmt.Errorf("uuid: unable to scan type %T", src)`, whose
text names the type. -/
theorem C14_scan_agrees_with_parse (V : UUID) (s : GoString) (b : List Byte) (t : TypeName)
    (hs : s ≠ []) (hb : b.length = 16) :
    (∃ u err, parseCanonical s = Except.ok (u, err)
        ∧ UUID.Scan V (Value.string s)
            = Except.ok (if err = none then u else V, err))
      ∧ (∃ u : UUID, parseBytes b = Except.ok (u, none) ∧ u.Bytes = b
        ∧ UUID.Scan V (Value.bytes b) = Except.ok (u, none))
      ∧ UUID.Scan V (Value.other t) = Except.ok (V, some (Error.scanType t))
      ∧ (Error.scanType t).message = ascii "uuid: unable to scan type " ++ t := by
  refine ⟨?_, ?_, rfl, rfl⟩
  · obtain ⟨⟨u, err⟩, h⟩ := parseCanonical_total s
    have h2 : Parse (Value.string s) = Except.ok (u, err) := h
    exact ⟨u, err, h, by simp only [UUID.Scan, scanString, if_neg hs]; exact scan_of_parse h2⟩
  · have h : parseBytes b = Except.ok ((Arr.zero 16).copy b, none) := by simp [parseBytes, hb]
    have h2 : Parse (Value.bytes b) = Except.ok ((Arr.zero 16).copy b, none) := h
    refine ⟨_, h, ?_, ?_⟩
    · simp [UUID.Bytes, Arr.copy, Arr.zero, hb, List.take_of_length_le]
    · simp only [UUID.Scan, scanBytes, if_pos hb]
      exact scan_of_parse h2

/-- Witness of C14: the text of the tests, a buffer of sixteen bytes that are
ASCII text, and the type `int`. -/
theorem C14_scan_agrees_with_parse_witness :
    sampleText ≠ [] ∧ textBuffer.length = 16
      ∧ UUID.Scan otherUUID (Value.string sampleText) = Except.ok (sampleUUID, none)
      ∧ UUID.Scan otherUUID (Value.bytes textBuffer) = Except.ok (⟨textBuffer, rfl⟩, none)
      ∧ ((∃ u err, parseCanonical sampleText = Except.ok (u, err)
          ∧ UUID.Scan otherUUID (Value.string sampleText)
              = Except.ok (if err = none then u else otherUUID, err))
        ∧ (∃ u : UUID, parseBytes textBuffer = Except.ok (u, none) ∧ u.Bytes = textBuffer
          ∧ UUID.Scan otherUUID (Value.bytes textBuffer) = Except.ok (u, none))
        ∧ UUID.Scan otherUUID (Value.other (ascii "int"))
            = Except.ok (otherUUID, some (Error.scanType (ascii "int")))
        ∧ (Error.scanType (ascii "int")).message
            = ascii "uuid: unable to scan type " ++ ascii "int") :=
  ⟨by decide, by decide, by decide, by decide,
    C14_scan_agrees_with_parse otherUUID sampleText textBuffer (ascii "int") (by decide) (by decide)⟩

/-- C15 as stated fails at the empty buffer: its length is not 16,
`parseCanonical("")` returns the length error, and `Scan` returns no error
(and leaves the target as it was). -/
theorem C15_counterexample_empty_buffer :
    ([] : List Byte).length ≠ 16
      ∧ parseCanonical [] = Except.ok (Arr.zero 16, some (Error.parseLength []))
      ∧ UUID.Scan sampleUUID (Value.bytes []) = Except.ok (sampleUUID, none) :=
  ⟨by decide, by decide, by decide⟩

/-- C15 as amended (scan text fallback for byte buffers): for every target `V`
and every non-empty buffer `b` whose length is not 16, `Scan(b)` returns the
error that `parseCanonical(string(b))` returns and, when that is no error, the
target holds the identifier `parseCanonical(string(b))` returns (otherwise it
stays `V`); on the empty buffer `Scan` returns no error and the target stays
`V`. -/
theorem C15_scan_text_fallback (V : UUID) (b : List Byte) (h16 : b.length ≠ 16) (h0 : b ≠ []) :
    (∃ u err, parseCanonical b = Except.ok (u, err)
        ∧ UUID.Scan V (Value.bytes b)
            = Except.ok (if err = none then u else V, err))
      ∧ UUID.Scan V (Value.bytes []) = Except.ok (V, none) := by
  refine ⟨?_, rfl⟩
  obtain ⟨⟨u, err⟩, h⟩ := parseCanonical_total b
  have h2 : Parse (Value.string b) = Except.ok (u, err) := h
  exact ⟨u, err, h, by
    simp only [UUID.Scan, scanBytes, scanString, if_neg h16, if_neg h0]; exact scan_of_parse h2⟩

/-- Witness of C15: the 36 bytes of the text of the tests, delivered as a
byte buffer. -/
theorem C15_scan_text_fallback_witness :
    sampleText.length ≠ 16 ∧ sampleText ≠ []
      ∧ UUID.Scan otherUUID (Value.bytes sampleText) = Except.ok (sampleUUID, none)
      ∧ UUID.Scan otherUUID (Value.bytes longText)
          = Except.ok (otherUUID, some (Error.parseLength longText))
      ∧ ((∃ u err, parseCanonical sampleText = Except.ok (u, err)
          ∧ UUID.Scan otherUUID (Value.bytes sampleText)
              = Except.ok (if err = none then u else otherUUID, err))
        ∧ UUID.Scan otherUUID (Value.bytes []) = Except.ok (otherUUID, none)) :=
  ⟨by decide, by decide, by decide, by decide,
    C15_scan_text_fallback otherUUID sampleText (by decide) (by decide)⟩

/-- C16 (atomicity of the in-place adapters): for every value `V` of the
target and every input, `UnmarshalText` and `Scan` return, and when the error
they return is not nil the target still holds `V`; so it does on the text of
the tests with a `g` as its last digit, where four groups decode before the
invalid one. -/
theorem C16_atomicity (V : UUID) (text : List Byte) (src : Value) :
    (∃ r err, UUID.UnmarshalText V text = Except.ok (r, err) ∧ (err ≠ none → r = V))
      ∧ (∃ r err, UUID.Scan V src = Except.ok (r, err) ∧ (err ≠ none → r = V))
      ∧ UUID.Scan sampleUUID (Value.string nonHexText)
          = Except.ok (sampleUUID, some (Error.hex (HexError.InvalidByteError 103)))
      ∧ UUID.UnmarshalText sampleUUID longBuffer
          = Except.ok (sampleUUID, some (Error.bytesLength 17 longBuffer)) :=
  ⟨UnmarshalText_total V text, Scan_total V src, by decide, by decide⟩

/-- C17 (outbound adapters): for every identifier `U`, `U.String()` is the
canonical text of `U` (the hexadecimal text of its five byte ranges joined by
hyphens), `Value()` returns that string with a nil error and `MarshalText()`
returns the bytes of that string, 36 of them, with a nil error; for the
identifier of the tests both return `3d8338c3-7106-4d89-a813-9fd9b7955b55`. -/
theorem C17_outbound_adapters (U : UUID) :
    U.String = Except.ok (canonical U.data)
      ∧ U.Value = Except.ok (Value.string (canonical U.data), none)
      ∧ U.MarshalText = Except.ok (canonical U.data, none)
      ∧ (canonical U.data).length = 36
      ∧ sampleUUID.Value = Except.ok (Value.string sampleText, none)
      ∧ sampleUUID.MarshalText = Except.ok (sampleText, none) := by
  refine ⟨String_eq U, by simp [UUID.Value, String_eq],
    by simp [UUID.MarshalText, encodeHex_eq, bytesFrom], ?_, by decide, by decide⟩
  obtain ⟨b0, b1, b2, b3, b4, b5, b6, b7, b8, b9, b10, b11, b12, b13, b14, b15, rfl⟩ := UUID_cases U
  rw [canonical_cons]; rfl

/-- C18 (a generated identifier is not the nil identifier): for every sixteen
bytes delivered by the randomness source, sixteen zero bytes included, `New`
returns an identifier and no error, and `Equal` of that identifier and
`UUID{}` is false. -/
theorem C18_new_not_nil (r : UUID) :
    (∃ U : UUID, New (Read.filled r) = Except.ok (U, none) ∧ Equal U (Arr.zero 16) = false)
      ∧ (∃ U : UUID, New (Read.filled (Arr.zero 16)) = Except.ok (U, none)
          ∧ Equal U (Arr.zero 16) = false) := by
  constructor
  · obtain ⟨b0, b1, b2, b3, b4, b5, b6, b7, b8, b9, b10, b11, b12, b13, b14, b15, rfl⟩ := UUID_cases r
    refine ⟨_, New_filled _ _ _ _ _ _ _ _ _ _ _ _ _ _ _ _, ?_⟩
    have h := (version_bits b6).2.2
    simp [Equal, UUID.Bytes, Arr.zero, List.replicate, h]
  · exact ⟨⟨[0, 0, 0, 0, 0, 0, 0x40, 0, 0x80, 0, 0, 0, 0, 0, 0, 0], rfl⟩, by decide, by decide⟩

/-- C19 (decode then encode canonicalises): for every string `s` that
`parseCanonical` decodes, with no error, to `U`, `U.String()` is `s` with every
uppercase hexadecimal letter `A`-`F` replaced by its lowercase form; when `s`
has no uppercase letter `U.String()` is `s`; and every other string that
decodes to `U` is equal to `s` once the letters `A`-`F` of both are put in
lowercase. -/
theorem C19_decode_then_encode (s : GoString) (U : UUID)
    (h : parseCanonical s = Except.ok (U, none)) :
    U.String = Except.ok (s.map lowerHexLetter)
      ∧ ((∀ c ∈ s, ¬ isUpperLetter c) → U.String = Except.ok s)
      ∧ (∀ s2, parseCanonical s2 = Except.ok (U, none)
          → s2.map lowerHexLetter = s.map lowerHexLetter) := by
  have h1 := String_of_parse h
  refine ⟨h1, ?_, ?_⟩
  · intro hn
    rw [h1, map_lowerHexLetter_of_no_upper hn]
  · intro s2 h2
    have h3 := String_of_parse h2
    rw [h1] at h3
    exact (Except.ok.inj h3).symm

/-- Witness of C19: the text of the tests in uppercase decodes to the
identifier of the tests, whose string is the text of the tests. -/
theorem C19_decode_then_encode_witness :
    parseCanonical upperText = Except.ok (sampleUUID, none)
      ∧ upperText.map lowerHexLetter = sampleText
      ∧ (sampleUUID.String = Except.ok (upperText.map lowerHexLetter)
        ∧ ((∀ c ∈ upperText, ¬ isUpperLetter c) → sampleUUID.String = Except.ok upperText)
        ∧ (∀ s2, parseCanonical s2 = Except.ok (sampleUUID, none)
            → s2.map lowerHexLetter = upperText.map lowerHexLetter)) :=
  ⟨by decide, by decide, C19_decode_then_encode upperText sampleUUID (by decide)⟩

/-- C20 (totality and bounds safety of `parseCanonical`): on every string
`parseCanonical` returns (identifier and error) without a panic; a string
whose length is not 36 is answered by the length check alone, before any of
the reads `s[8]`, `s[13]`, `s[18]`, `s[23]` (which on the empty string would be
out of range); on a string of length 36 those four reads are in range, the
loop over the five groups ends without a slice or an index out of range, and
when it ends without an error `src` and `dst` are empty. -/
theorem C20_total_and_bounds_safe (s : GoString) :
    (∃ r, parseCanonical s = Except.ok r)
      ∧ (s.length ≠ 36 → parseCanonical s = Except.ok (Arr.zero 16, some (Error.parseLength s)))
      ∧ (s.length = 36 → ∃ m, parseCanonical.misplaced s = Except.ok m)
      ∧ (s.length = 36 →
          ∃ r, parseCanonical.loop [8, 4, 4, 4, 12] 0 (Arr.zero 16) s ⟨0, 16⟩ = Except.ok r
            ∧ (r.2.2.2 = none → r.2.1 = [] ∧ r.2.2.1 = ⟨16, 0⟩))
      ∧ parseCanonical.misplaced [] = Except.error Panic.index
      ∧ parseCanonical [] = Except.ok (Arr.zero 16, some (Error.parseLength [])) := by
  refine ⟨parseCanonical_total s, ?_, ?_, ?_, rfl, by decide⟩
  · intro h
    simp [parseCanonical, h]
  · intro h
    obtain ⟨c0, c1, c2, c3, c4, c5, c6, c7, c8, c9, c10, c11, c12, c13, c14, c15, c16, c17, c18, c19, c20, c21, c22, c23, c24, c25, c26, c27, c28, c29, c30, c31, c32, c33, c34, c35, rfl⟩ := string36_cases s h
    exact ⟨_, misplaced_cons _ _ _ _ _ _ _ _ _ _ _ _ _ _ _ _ _ _ _ _ _ _ _ _ _ _ _ _ _ _ _ _ _ _ _ _⟩
  · intro h
    obtain ⟨c0, c1, c2, c3, c4, c5, c6, c7, c8, c9, c10, c11, c12, c13, c14, c15, c16, c17, c18, c19, c20, c21, c22, c23, c24, c25, c26, c27, c28, c29, c30, c31, c32, c33, c34, c35, rfl⟩ := string36_cases s h
    exact loop_total _ _ _ _ _ _ _ _ _ _ _ _ _ _ _ _ _ _ _ _ _ _ _ _ _ _ _ _ _ _ _ _ _ _ _ _

end Uuid
